import Mathlib

/-!
Verification of the core tree / layout logic of `gwm` (src/gwm.py), a tiling
window manager.

The development has two layers.

* A generic `Node` layer (`Gwm.PNode`), modelling the parent-side state of a
  Python `Node` (its ordered `_children` and `_i_active_child`).  Python
  objects are identified by ids (`Nat`); `Node` defines no `__eq__`, so `==`
  on nodes is object identity, i.e. id equality.  Lists index with Python
  semantics (negative indices count from the end), captured by `pyIdx`/`pyGet`.

* A structural layer for the concrete Root → Task → Screen → Workspace →
  Window hierarchy that `Tree` builds (`Gwm.Root` etc.), with every
  tree-mutating event/command of `Tree` embedded as a state-passing function.
  A `Window` node is represented by its X handle (a `Nat`); the duplicate
  handle invariant proved below makes this identification faithful on all
  reachable states.  Exceptions (`IndexError`, failed `assert`) are modelled
  by `Option`: `none` means the Python process would have died there.

`master_factor` is a Python float; it is modelled as `ℚ`.  All operations
performed on it in the source (`+`, `min`, `max`, multiplication by an
integral screen dimension and `int(...)` truncation) are order-theoretic or
exact at every concrete input used in the theorems below, where the IEEE
double evaluation and the rational evaluation coincide (in particular
`int(1920 * 0.6) = 1152` holds for the double `0.6` as well as for `3/5`).
-/

namespace Gwm

/-- Python list indexing (`lst[i]`): a non-negative index must be `< len`,
a negative index counts from the end and must satisfy `-i ≤ len`.
`none` models `IndexError`. -/
def pyIdx (len : Nat) (i : Int) : Option Nat :=
  if 0 ≤ i then (if i < (len : Int) then some i.toNat else none)
  else (if -i ≤ (len : Int) then some (len - (-i).toNat) else none)

/-- Python list element access `lst[i]` with Python index semantics. -/
def pyGet {α : Type} (l : List α) (i : Int) : Option α :=
  (pyIdx l.length i).bind fun j => l[j]?

/-! ### The generic `Node` layer (src/gwm.py lines 103-188)

`PNode` is the parent-side state of a `Node`: the ordered list of children
(as object ids — two children of one parent are always distinct objects,
and `Node` equality is object identity) and `_i_active_child`. -/

/-- The parent-side state of a Python `Node`: `_children` (object ids) and
`_i_active_child` (a Python `int`, which the code can set to `-1`). -/
structure PNode where
  children : List Nat
  iActive : Int
deriving DecidableEq

/-- `Node.remove` (src/gwm.py lines 115-122), effect on the parent:
read `active_child = parent._children[parent._i_active_child]` (an
`IndexError` is `none`), remove the first occurrence of `self` (object
identity = id equality), then either point `_i_active_child` at the new last
child (if `self` was active) or at the old active child's new position
(`children.index(active_child)`). -/
def PNode.removeChild (p : PNode) (s : Nat) : Option PNode :=
  (pyGet p.children p.iActive).map fun activeChild =>
    let c := p.children.erase s
    if activeChild = s then ⟨c, (c.length : Int) - 1⟩
    else ⟨c, (c.indexOf activeChild : Int)⟩

/-- `Node.get_sibling_by_offset` (src/gwm.py lines 133-137): `self` when
there is no parent, otherwise the sibling at
`(self.get_index() + offset) % len(parent._children)` (Python `%` on a
positive modulus is `Int.emod`; `get_index` is the first index of `self`,
i.e. its position, since children are distinct objects). -/
def getSiblingByOffset (parent : Option PNode) (s : Nat) (offset : Int) : Nat :=
  match parent with
  | none => s
  | some p =>
      p.children.getD
        ((((p.children.indexOf s : Int) + offset).emod (p.children.length : Int)).toNat) s

/-- A Python `Window` node (src/gwm.py lines 191-197): the wrapped
`_xlib_window` handle plus the Python object identity `objId`.  The class
defines no `__eq__`, so `==` on `Window` nodes is object identity. -/
structure WindowNode where
  objId : Nat
  xlibWindow : Nat
deriving DecidableEq

/-- Python `==` on two `Window` nodes: identity comparison (inherited
default equality; neither `Window` nor `Node` overrides `__eq__`). -/
def windowNodeEq (a b : WindowNode) : Bool := a.objId == b.objId

end Gwm

namespace Gwm

/-! ### Claims C1, C6, C9 -/

/-- C1.  For every `Node` with a parent (children distinct objects, the
parent's active index resolving to the object `a`): `remove()` succeeds, the
child list loses exactly `self`, and
* if `self` was the active child, the new `_i_active_child` is
  `len(children') - 1`, the index of the new last child (when one exists,
  indexing with it yields the last child);
* if `self` was not the active child, the new `_i_active_child` points at
  the identical sibling object `a` that was active before. -/
theorem C1_remove_active_index (p : PNode) (s a : Nat)
    (hnd : p.children.Nodup) (hs : s ∈ p.children)
    (ha : pyGet p.children p.iActive = some a) :
    ∃ p', p.removeChild s = some p' ∧ p'.children = p.children.erase s ∧
      (a = s → p'.iActive = (p'.children.length : Int) - 1 ∧
        (p'.children ≠ [] → pyGet p'.children p'.iActive = p'.children.getLast?)) ∧
      (a ≠ s → pyGet p'.children p'.iActive = some a) := by
  have hdef : p.removeChild s = some
      (if a = s then ⟨p.children.erase s, ((p.children.erase s).length : Int) - 1⟩
       else ⟨p.children.erase s, ((p.children.erase s).indexOf a : Int)⟩) := by
    simp only [PNode.removeChild, ha, Option.map_some']
  by_cases hase : a = s
  · refine ⟨_, hdef, ?_⟩
    rw [if_pos hase]
    refine ⟨rfl, fun _ => ⟨rfl, fun hne => ?_⟩, fun hne => absurd hase hne⟩
    have hlen : 0 < (p.children.erase s).length := List.length_pos.2 hne
    have hidx : pyIdx (p.children.erase s).length (((p.children.erase s).length : Int) - 1) =
        some ((p.children.erase s).length - 1) := by
      simp only [pyIdx]
      rw [if_pos (by omega), if_pos (by omega)]
      congr 1
      omega
    show pyGet (p.children.erase s) (((p.children.erase s).length : Int) - 1) =
      (p.children.erase s).getLast?
    simp only [pyGet, hidx, Option.some_bind]
    rw [List.getLast?_eq_getElem?]
  · refine ⟨_, hdef, ?_⟩
    rw [if_neg hase]
    refine ⟨rfl, fun hh => absurd hh hase, fun _ => ?_⟩
    have hmem : a ∈ p.children := by
      rcases Option.bind_eq_some.1 ha with ⟨j, _, hj⟩
      exact List.getElem?_mem hj
    have hmem' : a ∈ p.children.erase s := (List.mem_erase_of_ne hase).2 hmem
    have hlt : (p.children.erase s).indexOf a < (p.children.erase s).length :=
      List.indexOf_lt_length.2 hmem'
    have hidx : pyIdx (p.children.erase s).length ((p.children.erase s).indexOf a : Int) =
        some ((p.children.erase s).indexOf a) := by
      simp only [pyIdx]
      rw [if_pos (by omega), if_pos (by exact_mod_cast hlt)]
      simp
    show pyGet (p.children.erase s) ((p.children.erase s).indexOf a : Int) = some a
    simp only [pyGet, hidx, Option.some_bind]
    rw [List.getElem?_eq_getElem hlt]
    exact congrArg some (List.indexOf_get hlt)

/-- Witness for C1 at a concrete node: parent with children `[1, 2, 3]`,
active index `0` (object `1`), removing the non-active child `2`. -/
theorem C1_remove_active_index_witness :
    ∃ p', PNode.removeChild ⟨[1, 2, 3], 0⟩ 2 = some p' ∧
      p'.children = ([1, 2, 3] : List Nat).erase 2 ∧
      ((1 : Nat) = 2 → p'.iActive = (p'.children.length : Int) - 1 ∧
        (p'.children ≠ [] → pyGet p'.children p'.iActive = p'.children.getLast?)) ∧
      ((1 : Nat) ≠ 2 → pyGet p'.children p'.iActive = some 1) :=
  C1_remove_active_index ⟨[1, 2, 3], 0⟩ 2 1 (by decide) (by decide) (by decide)

/-- Index-congruence for `List.get`. -/
lemma list_get_congr {α : Type} (l : List α) {i i' : Nat} (h : i = i') (hi : i < l.length) :
    l.get ⟨i, hi⟩ = l.get ⟨i', h ▸ hi⟩ := by
  subst h
  rfl

/-- One `get_sibling_by_offset(1)` call moves from position `j` to position
`(j + 1) % n` when the children are distinct objects. -/
lemma getSiblingByOffset_one_step (p : PNode) (hnd : p.children.Nodup)
    (j : Nat) (hj : j < p.children.length) :
    getSiblingByOffset (some p) (p.children.get ⟨j, hj⟩) 1
      = p.children.get ⟨(j + 1) % p.children.length,
          Nat.mod_lt _ (Nat.zero_lt_of_lt hj)⟩ := by
  have hn : 0 < p.children.length := Nat.zero_lt_of_lt hj
  simp only [getSiblingByOffset]
  have hidx : p.children.indexOf (p.children.get ⟨j, hj⟩) = j := by
    simpa using List.indexOf_getElem hnd j hj
  rw [hidx]
  have hemod : (((j : Int) + 1).emod (p.children.length : Int)).toNat
      = (j + 1) % p.children.length := by
    have h1 : ((j : Int) + 1) = ((j + 1 : Nat) : Int) := by push_cast; ring
    have h2 : (((j + 1 : Nat) : Int)).emod (p.children.length : Int)
        = (((j + 1) % p.children.length : Nat) : Int) :=
      (Int.natCast_mod _ _).symm
    rw [h1, h2]
    exact Int.toNat_ofNat _
  rw [hemod]
  have hlt : (j + 1) % p.children.length < p.children.length := Nat.mod_lt _ hn
  rw [List.getD_eq_getElem?_getD, List.getElem?_eq_getElem hlt]
  rfl

/-- Iterating `get_sibling_by_offset(1)` `k` times from position `j` lands
at position `(j + k) % n`. -/
lemma getSiblingByOffset_iterate (p : PNode) (hnd : p.children.Nodup)
    (k j : Nat) (hj : j < p.children.length) :
    (fun x => getSiblingByOffset (some p) x 1)^[k] (p.children.get ⟨j, hj⟩)
      = p.children.get ⟨(j + k) % p.children.length,
          Nat.mod_lt _ (Nat.zero_lt_of_lt hj)⟩ := by
  have hn : 0 < p.children.length := Nat.zero_lt_of_lt hj
  induction k with
  | zero =>
      simp only [Function.iterate_zero, id_eq]
      exact list_get_congr _ ((Nat.mod_eq_of_lt hj).symm) hj
  | succ k ih =>
      rw [Function.iterate_succ_apply', ih, getSiblingByOffset_one_step p hnd]
      refine list_get_congr _ ?_ _
      rw [Nat.mod_add_mod]
      rfl

/-- C6.  `get_sibling_by_offset(offset)`:
* with no parent, returns `self`;
* with a parent, returns the sibling at index
  `(self.get_index() + offset) mod sibling_count` — the index is in range and
  indexing the children with it yields the returned node;
* consequently, `sibling_count` successive `get_sibling_by_offset(1)` calls
  return the starting node. -/
theorem C6_sibling_offset_cyclic :
    (∀ (s : Nat) (off : Int), getSiblingByOffset none s off = s) ∧
    (∀ (p : PNode) (s : Nat) (off : Int), s ∈ p.children →
      p.children[((((p.children.indexOf s : Int) + off).emod
          (p.children.length : Int)).toNat)]?
        = some (getSiblingByOffset (some p) s off)) ∧
    (∀ (p : PNode) (s : Nat), s ∈ p.children → p.children.Nodup →
      (fun x => getSiblingByOffset (some p) x 1)^[p.children.length] s = s) := by
  refine ⟨fun s off => rfl, fun p s off hs => ?_, fun p s hs hnd => ?_⟩
  · have hn : 0 < p.children.length := List.length_pos.2 (List.ne_nil_of_mem hs)
    have hnz : (p.children.length : Int) ≠ 0 := by exact_mod_cast Nat.pos_iff_ne_zero.1 hn
    have hnn : 0 ≤ ((p.children.indexOf s : Int) + off).emod (p.children.length : Int) :=
      Int.emod_nonneg _ hnz
    have hltI : ((p.children.indexOf s : Int) + off).emod (p.children.length : Int)
        < (p.children.length : Int) := Int.emod_lt_of_pos _ (by exact_mod_cast hn)
    have hlt : ((((p.children.indexOf s : Int) + off).emod
        (p.children.length : Int)).toNat) < p.children.length := by omega
    rw [List.getElem?_eq_getElem hlt]
    simp only [getSiblingByOffset]
    rw [List.getD_eq_getElem?_getD, List.getElem?_eq_getElem hlt]
    rfl
  · have hj : p.children.indexOf s < p.children.length := List.indexOf_lt_length.2 hs
    have hget : p.children.get ⟨p.children.indexOf s, hj⟩ = s := List.indexOf_get hj
    calc (fun x => getSiblingByOffset (some p) x 1)^[p.children.length] s
        = (fun x => getSiblingByOffset (some p) x 1)^[p.children.length]
            (p.children.get ⟨p.children.indexOf s, hj⟩) := by rw [hget]
      _ = p.children.get ⟨(p.children.indexOf s + p.children.length) % p.children.length,
            Nat.mod_lt _ (Nat.zero_lt_of_lt hj)⟩ :=
          getSiblingByOffset_iterate p hnd _ _ hj
      _ = s := by
          have hmod : (p.children.indexOf s + p.children.length) % p.children.length
              = p.children.indexOf s := by
            rw [Nat.add_mod_right]
            exact Nat.mod_eq_of_lt hj
          rw [list_get_congr _ hmod _]
          exact List.indexOf_get hj

/-- Witness for C6 at a concrete node: children `[4, 5, 6]`, node `5`,
offset `-1`; and three `offset = 1` steps returning to `5`. -/
theorem C6_sibling_offset_cyclic_witness :
    ([4, 5, 6] : List Nat)[((((([4, 5, 6] : List Nat).indexOf 5 : Int) + (-1)).emod
        (([4, 5, 6] : List Nat).length : Int)).toNat)]?
      = some (getSiblingByOffset (some ⟨[4, 5, 6], 0⟩) 5 (-1)) ∧
    (fun x => getSiblingByOffset (some ⟨[4, 5, 6], 0⟩) x 1)^[3] 5 = 5 :=
  ⟨C6_sibling_offset_cyclic.2.1 ⟨[4, 5, 6], 0⟩ 5 (-1) (by decide),
   C6_sibling_offset_cyclic.2.2 ⟨[4, 5, 6], 0⟩ 5 (by decide) (by decide)⟩

/-- C9 counterexample: the `Window` nodes with object ids `0` and `1` both
wrap handle `42`; they do NOT compare equal (`Window` inherits Python's
default identity equality, src/gwm.py lines 191-197 define no `__eq__`),
contradicting "two distinct Window nodes wrapping the same handle compare
equal". -/
theorem C9_counterexample :
    windowNodeEq ⟨0, 42⟩ ⟨1, 42⟩ = false ∧
      (WindowNode.mk 0 42).xlibWindow = (WindowNode.mk 1 42).xlibWindow := by
  decide

/-- C9 (amended).  Two `Window` nodes compare equal iff they are the same
object (Python identity; the class defines no `__eq__`), so node equality
implies handle equality, but two distinct Window nodes wrapping the same
handle do NOT compare equal. -/
theorem C9_window_identity_eq :
    (∀ a b : WindowNode, windowNodeEq a b = true ↔ a.objId = b.objId) ∧
    (∀ a b : WindowNode, a.objId ≠ b.objId → windowNodeEq a b = false) := by
  refine ⟨fun a b => ?_, fun a b h => ?_⟩
  · simp [windowNodeEq]
  · simp [windowNodeEq, h]

/-- Witness for C9 (amended) at concrete nodes. -/
theorem C9_window_identity_eq_witness :
    windowNodeEq ⟨0, 7⟩ ⟨2, 7⟩ = false :=
  C9_window_identity_eq.2 ⟨0, 7⟩ ⟨2, 7⟩ (by decide)

/-! ### Constants (src/gwm.py lines 36-43, 81-82) -/

def TASK_NAME_DEFAULT : String := "default"

def MASTER_FACTOR_DEFAULT : ℚ := 0.6

def MASTER_FACTOR_MIN : ℚ := 0.1

def MASTER_FACTOR_MAX : ℚ := 0.9

def N_WORKSPACES : Nat := 4

def WINDOW_BORDER_WIDTH : Int := 2

/-- `INT16_MAX = (1 << 15) - 1` (src/gwm.py line 81). -/
def INT16_MAX : Int := (1 <<< 15) - 1

/-- `TASK_WINDOW_MOVE_MARKER` (src/gwm.py line 82). -/
def TASK_WINDOW_MOVE_MARKER : String := "TASK_WINDOW_MOVE_MARKER"

/-- Python `int(q)`: truncation toward zero. -/
def pyInt (q : ℚ) : Int := if 0 ≤ q then q.floor else -((-q).floor)

/-- Python `str.startswith(prefix)`. -/
def pyStartswith (s pre : String) : Bool := pre.data.isPrefixOf s.data

/-- Python `str.lstrip(chars)`: remove all leading characters that occur in
the character set `chars`.  (This is NOT prefix removal.) -/
def pyLstrip (s chars : String) : String :=
  String.mk (s.data.dropWhile (fun c => chars.data.contains c))

/-! ### The structural tree layer

`Tree` (src/gwm.py lines 226-523) only ever builds trees of the shape
Root → Task → Screen → Workspace → Window, so the reachable states of the
generic `Node` arena are embedded structurally: each level is a structure
holding the list of its children, its `_i_active_child`, and its own
payload.  A Window child is represented by its X window handle.  The
`search_active` chain from the root is the `active…` accessors (Python list
indexing, `IndexError` = `none`); `search_all(Window)` is the pre-order
concatenation `allWindows`. -/

/-- A `Workspace` node: `_children` (windows, by handle, oldest first),
`_i_active_child`, `_master_factor` (src/gwm.py lines 200-209). -/
structure Workspace where
  windows : List Nat
  iActive : Int
  masterFactor : ℚ
deriving DecidableEq

/-- A `Screen` node: `_children` (workspaces) and `_i_active_child`
(src/gwm.py lines 212-214). -/
structure Screen where
  workspaces : List Workspace
  iActive : Int
deriving DecidableEq

/-- A `Task` node: `_name`, `_children` (screens), `_i_active_child`
(src/gwm.py lines 217-223). -/
structure Task where
  name : String
  screens : List Screen
  iActive : Int
deriving DecidableEq

/-- The root `Node` of a `Tree` (src/gwm.py line 250): `_children` (tasks)
and `_i_active_child`. -/
structure Root where
  tasks : List Task
  iActive : Int
deriving DecidableEq

/-- `Workspace.get_master_factor` (src/gwm.py lines 205-206). -/
def Workspace.getMasterFactor (w : Workspace) : ℚ := w.masterFactor

/-- `Workspace.adjust_master_factor` (src/gwm.py lines 208-209):
`self._master_factor = max(min(self._master_factor + amount,
MASTER_FACTOR_MAX), MASTER_FACTOR_MIN)`. -/
def Workspace.adjustMasterFactor (w : Workspace) (amount : ℚ) : Workspace :=
  { w with masterFactor := max (min (w.masterFactor + amount) MASTER_FACTOR_MAX) MASTER_FACTOR_MIN }

/-- `search_active(Task)` from the root: descend into the active child. -/
def Root.activeTask (r : Root) : Option Task := pyGet r.tasks r.iActive

/-- `search_active(Screen)` on a task. -/
def Task.activeScreen (t : Task) : Option Screen := pyGet t.screens t.iActive

/-- `search_active(Workspace)` on a screen. -/
def Screen.activeWorkspace (s : Screen) : Option Workspace := pyGet s.workspaces s.iActive

/-- `search_active(Window)` on a workspace: the active window's handle. -/
def Workspace.activeWindow (w : Workspace) : Option Nat := pyGet w.windows w.iActive

/-- `workspace.search_all(Window)` on a workspace: its windows in order. -/
def Workspace.allWindows (w : Workspace) : List Nat := w.windows

/-- `search_all(Window)` on a screen: pre-order over its workspaces. -/
def Screen.allWindows (s : Screen) : List Nat := (s.workspaces.map Workspace.windows).flatten

/-- `task.search_all(Window)` (used by `_switch_task`): pre-order over the
task's screens and workspaces. -/
def Task.allWindows (t : Task) : List Nat := (t.screens.map Screen.allWindows).flatten

/-- `self.root.search_all(Window)`: every tracked window handle, in
pre-order. -/
def Root.allWindows (r : Root) : List Nat := (r.tasks.map Task.allWindows).flatten

/-- `Node.remove` (src/gwm.py lines 115-122) on one parent, positionally:
the removed node sits at position `p` of `children` (Python's
`children.remove(self)` removes the first occurrence `==` `self`, and `==`
on nodes is object identity, so exactly position `p`).  `active_child` is
`children[_i_active_child]` (`IndexError` = `none`); if it is the removed
object (`ia = p`), the new `_i_active_child` is `len(children') - 1`; else
it is `children'.index(active_child)`, the active object's shifted
position. -/
def nodeRemoveAt {α : Type} (children : List α) (iActive : Int) (p : Nat) :
    Option (List α × Int) :=
  (pyIdx children.length iActive).map fun ia =>
    let c := children.eraseIdx p
    if ia = p then (c, (c.length : Int) - 1)
    else (c, if ia < p then (ia : Int) else (ia : Int) - 1)

/-- The active path Root → Task → Screen → Workspace, resolved positionally
(each `search_active` descent is Python indexing by `_i_active_child`). -/
structure ActivePath where
  iT : Nat
  task : Task
  iS : Nat
  screen : Screen
  iW : Nat
  workspace : Workspace

/-- Resolve the active Task/Screen/Workspace path from the root
(`root.search_active(Workspace)`; `none` when the chain runs out). -/
def Root.resolveActivePath (r : Root) : Option ActivePath := do
  let iT ← pyIdx r.tasks.length r.iActive
  let t ← r.tasks[iT]?
  let iS ← pyIdx t.screens.length t.iActive
  let s ← t.screens[iS]?
  let iW ← pyIdx s.workspaces.length s.iActive
  let w ← s.workspaces[iW]?
  some ⟨iT, t, iS, s, iW, w⟩

/-- Rebuild the tree after replacing the active-path workspace by `w'` and
writing `_i_active_child` values `sIA`/`tIA`/`rIA` at the screen, task and
root levels (an `activate()` walk writes the path positions there; other
operations pass the old values unchanged). -/
def Root.rebuildPath (r : Root) (pa : ActivePath) (w' : Workspace)
    (sIA tIA rIA : Int) : Root :=
  { tasks := r.tasks.set pa.iT { pa.task with
      screens := pa.task.screens.set pa.iS { pa.screen with
        workspaces := pa.screen.workspaces.set pa.iW w', iActive := sIA },
      iActive := tIA },
    iActive := rIA }

/-- `Tree._handle_window` (src/gwm.py lines 363-376), given the result of
the `_is_window_valid` display-server query.  Invalid windows and handles
already tracked anywhere in the tree are ignored; otherwise a fresh Window
is appended to the active workspace with `set_active=True` and
`activate()`d (each ancestor's `_i_active_child` becomes the path child's
index).  `none` models the `assert workspace is not None` failure. -/
def Tree.handleWindow (valid : Bool) (r : Root) (h : Nat) : Option Root :=
  if valid = false then some r
  else if h ∈ r.allWindows then some r
  else
    match r.resolveActivePath with
    | none => none
    | some pa =>
        let w' : Workspace := { pa.workspace with
          windows := pa.workspace.windows ++ [h],
          iActive := ((pa.workspace.windows ++ [h]).length : Int) - 1 }
        some (r.rebuildPath pa w' (pa.iW : Int) (pa.iS : Int) (pa.iT : Int))

/-- `Option`-valued map over a list (all-or-nothing). -/
def optMap {α β : Type} (f : α → Option β) : List α → Option (List β)
  | [] => some []
  | a :: l => match f a, optMap f l with
    | some b, some bs => some (b :: bs)
    | _, _ => none

/-- One workspace's part of `Tree._unhandle_window`: remove the window with
handle `h` (its position: the first occurrence — window handles are unique
on reachable states, so this is the object's position) via `Node.remove`;
workspaces not holding `h` are untouched. -/
def Workspace.removeWindowHandle (w : Workspace) (h : Nat) : Option Workspace :=
  if h ∈ w.windows then
    (nodeRemoveAt w.windows w.iActive (w.windows.indexOf h)).map fun ci =>
      ⟨ci.1, ci.2, w.masterFactor⟩
  else some w

/-- `Tree._unhandle_window` (src/gwm.py lines 378-382): every tracked Window
whose handle equals `h` is removed from its workspace. -/
def Tree.unhandleWindow (r : Root) (h : Nat) : Option Root := do
  let tasks ← optMap (fun t => do
      let screens ← optMap (fun s => do
          let wss ← optMap (fun w => Workspace.removeWindowHandle w h) s.workspaces
          some { s with workspaces := wss }) t.screens
      some { t with screens := screens }) r.tasks
  some { r with tasks := tasks }

/-- `Tree._adjust_master_factor` (src/gwm.py lines 503-507): adjust the
active workspace's factor (`none` models the `assert` on a missing active
workspace). -/
def Tree.adjustMasterFactorCmd (r : Root) (amount : ℚ) : Option Root :=
  match r.resolveActivePath with
  | none => none
  | some pa =>
      some (r.rebuildPath pa (pa.workspace.adjustMasterFactor amount)
        pa.screen.iActive pa.task.iActive r.iActive)

/-- `Tree._switch_workspace` (src/gwm.py lines 342-349): if the requested
index differs from the active workspace's position, activate the sibling at
that index (`none` when the index is out of range — the `assert` fires). -/
def Tree.switchWorkspace (r : Root) (i : Nat) : Option Root :=
  match r.resolveActivePath with
  | none => none
  | some pa =>
      if i = pa.iW then some r
      else
        match pa.screen.workspaces[i]? with
        | none => none
        | some _ =>
            some (r.rebuildPath pa pa.workspace (i : Int) (pa.iS : Int) (pa.iT : Int))

/-- `Tree._move_window_to_workspace` (src/gwm.py lines 351-361): detach the
active window and append it (`set_active=True`) to the workspace at index
`i` of the same screen.  No `activate()` happens: only the two workspaces
change. -/
def Tree.moveWindowToWorkspace (r : Root) (i : Nat) : Option Root :=
  match r.resolveActivePath with
  | none => none
  | some pa =>
      if i = pa.iW then some r
      else
        match pyIdx pa.workspace.windows.length pa.workspace.iActive with
        | none => some r
        | some pW =>
            let h := pa.workspace.windows.getD pW 0
            match nodeRemoveAt pa.workspace.windows pa.workspace.iActive pW with
            | none => none
            | some ci =>
                let w' : Workspace := ⟨ci.1, ci.2, pa.workspace.masterFactor⟩
                let wss1 := pa.screen.workspaces.set pa.iW w'
                match wss1[i]? with
                | none => none
                | some wTgt =>
                    let wTgt' : Workspace := { wTgt with
                      windows := wTgt.windows ++ [h],
                      iActive := ((wTgt.windows ++ [h]).length : Int) - 1 }
                    some { r with tasks := r.tasks.set pa.iT { pa.task with
                      screens := pa.task.screens.set pa.iS
                        { pa.screen with workspaces := wss1.set i wTgt' } } }

/-- `Tree._move_window_to_screen` (src/gwm.py lines 329-340): resolve the
cyclic sibling screen; if it is a different object (different position),
move the active window into its active workspace (`set_active=True`). -/
def Tree.moveWindowToScreen (r : Root) (off : Int) : Option Root := do
  let iT ← pyIdx r.tasks.length r.iActive
  let t ← r.tasks[iT]?
  let iS ← pyIdx t.screens.length t.iActive
  let s ← t.screens[iS]?
  let jS := (((iS : Int) + off).emod (t.screens.length : Int)).toNat
  if jS = iS then some r
  else
    match pyIdx s.workspaces.length s.iActive with
    | none => some r
    | some iW => do
        let w ← s.workspaces[iW]?
        match pyIdx w.windows.length w.iActive with
        | none => some r
        | some pW => do
            let h := w.windows.getD pW 0
            let ci ← nodeRemoveAt w.windows w.iActive pW
            let w' : Workspace := ⟨ci.1, ci.2, w.masterFactor⟩
            let s' : Screen := { s with workspaces := s.workspaces.set iW w' }
            let screens1 := t.screens.set iS s'
            let sNew ← screens1[jS]?
            let iWn ← pyIdx sNew.workspaces.length sNew.iActive
            let wn ← sNew.workspaces[iWn]?
            let wn' : Workspace := { wn with
              windows := wn.windows ++ [h],
              iActive := ((wn.windows ++ [h]).length : Int) - 1 }
            let sNew' : Screen := { sNew with
              workspaces := sNew.workspaces.set iWn wn' }
            let t' : Task := { t with screens := screens1.set jS sNew' }
            some { r with tasks := r.tasks.set iT t' }

/-- `Tree._focus_window_by_offset` (src/gwm.py lines 384-389): activate the
cyclic sibling window (only `_i_active_child` values along the path
change). -/
def Tree.focusWindowByOffset (r : Root) (off : Int) : Option Root :=
  match r.resolveActivePath with
  | none => some r
  | some pa =>
      match pyIdx pa.workspace.windows.length pa.workspace.iActive with
      | none => some r
      | some pW =>
          let j := (((pW : Int) + off).emod (pa.workspace.windows.length : Int)).toNat
          some (r.rebuildPath pa { pa.workspace with iActive := (j : Int) }
            (pa.iW : Int) (pa.iS : Int) (pa.iT : Int))

/-- `Tree._focus_screen_by_offset` (src/gwm.py lines 509-514): activate the
cyclic sibling screen (no structural change). -/
def Tree.focusScreenByOffset (r : Root) (off : Int) : Option Root := do
  let iT ← pyIdx r.tasks.length r.iActive
  let t ← r.tasks[iT]?
  let iS ← pyIdx t.screens.length t.iActive
  let _ ← t.screens[iS]?
  let jS := (((iS : Int) + off).emod (t.screens.length : Int)).toNat
  let t' : Task := { t with iActive := (jS : Int) }
  some { tasks := r.tasks.set iT t', iActive := (iT : Int) }

/-- `Tree._promote_window` (src/gwm.py lines 391-404): if the focused window
is not the last child, `activate(promote=True)` it (detach + re-append as
last + activate); if it is, promote the most recently active stack window
(the first window ≠ focused scanning `reversed(...)`, i.e. position
`n - 2`) instead. -/
def Tree.promoteWindow (r : Root) : Option Root :=
  match r.resolveActivePath with
  | none => some r
  | some pa =>
      match pyIdx pa.workspace.windows.length pa.workspace.iActive with
      | none => some r
      | some pW =>
          let n := pa.workspace.windows.length
          if pW ≠ n - 1 then
            let h := pa.workspace.windows.getD pW 0
            match nodeRemoveAt pa.workspace.windows pa.workspace.iActive pW with
            | none => none
            | some ci =>
                let w' : Workspace :=
                  ⟨ci.1 ++ [h], ((ci.1 ++ [h]).length : Int) - 1, pa.workspace.masterFactor⟩
                some (r.rebuildPath pa w' (pa.iW : Int) (pa.iS : Int) (pa.iT : Int))
          else
            if n < 2 then some r
            else
              let q := n - 2
              let h := pa.workspace.windows.getD q 0
              match nodeRemoveAt pa.workspace.windows pa.workspace.iActive q with
              | none => none
              | some ci =>
                  let w' : Workspace :=
                    ⟨ci.1 ++ [h], ((ci.1 ++ [h]).length : Int) - 1, pa.workspace.masterFactor⟩
                  some (r.rebuildPath pa w' (pa.iW : Int) (pa.iS : Int) (pa.iT : Int))

/-- `Tree._create_task` (src/gwm.py lines 278-286) minus the root append: a
fresh Task named `name` with one Screen per detected monitor
(`screen_count`), each holding `N_WORKSPACES` fresh empty workspaces. -/
def createTask (screenCount : Nat) (name : String) : Task :=
  { name := name,
    screens := List.replicate screenCount
      ⟨List.replicate N_WORKSPACES ⟨[], 0, MASTER_FACTOR_DEFAULT⟩, 0⟩,
    iActive := 0 }

/-- The `for task in tasks: if task.get_name() == name: task_new = task`
loop keeps the LAST match; this returns its index. -/
def findLastIdx {α : Type} (p : α → Bool) : List α → Option Nat
  | [] => none
  | a :: l => match findLastIdx p l with
    | some j => some (j + 1)
    | none => if p a then some 0 else none

/-- The body of `Tree._switch_task` (src/gwm.py lines 291-304) once the
previous active task (`prev`, with its position) is known to have a
different name (or not to exist): find the last existing task with the
requested name or create one (appended to the root); remove the previous
task if its subtree holds no windows; `activate(promote=True)` the target
(detach, re-append last, point the root at it).  The `Bool` records that
`_update_window_positions` ran. -/
def Tree.switchTaskGo (sc : Nat) (r : Root) (name : String)
    (prev : Option (Nat × Task)) : Option (Root × Bool) :=
  let found := findLastIdx (fun tk => tk.name == name) r.tasks
  let tasks1 := match found with
    | some _ => r.tasks
    | none => r.tasks ++ [createTask sc name]
  let j := match found with
    | some j => j
    | none => r.tasks.length
  let tNew := tasks1.getD j (createTask sc name)
  let step2 : Option (List Task × Int × Nat) :=
    match prev with
    | some (iP, tp) =>
        if tp.allWindows = [] then
          (nodeRemoveAt tasks1 r.iActive iP).map fun ci =>
            (ci.1, ci.2, if iP < j then j - 1 else j)
        else some (tasks1, r.iActive, j)
    | none => some (tasks1, r.iActive, j)
  match step2 with
  | none => none
  | some (tasks2, ia2, j2) =>
      match nodeRemoveAt tasks2 ia2 j2 with
      | none => none
      | some ci =>
          let tasks4 := ci.1 ++ [tNew]
          some ({ tasks := tasks4, iActive := (tasks4.length : Int) - 1 }, true)

/-- `Tree._switch_task` (src/gwm.py lines 288-304), `sc` being the monitor
count `_get_screen_count()` would report at this instant.  When the active
task already carries the requested name, nothing at all happens. -/
def Tree.switchTask (sc : Nat) (r : Root) (name : String) : Option (Root × Bool) :=
  match pyIdx r.tasks.length r.iActive, pyGet r.tasks r.iActive with
  | some iP, some tp =>
      if tp.name = name then some (r, false)
      else Tree.switchTaskGo sc r name (some (iP, tp))
  | _, _ => Tree.switchTaskGo sc r name none

/-- `search_active(Window)` from one task downward, resolved positionally:
the active Screen → Workspace → Window chain with every position
(`none` when the chain runs out of children). -/
def Task.windowPath (t : Task) : Option (Nat × Screen × Nat × Workspace × Nat) := do
  let iS ← pyIdx t.screens.length t.iActive
  let s ← t.screens[iS]?
  let iW ← pyIdx s.workspaces.length s.iActive
  let w ← s.workspaces[iW]?
  let pW ← pyIdx w.windows.length w.iActive
  pure (iS, s, iW, w, pW)

/-- `search_active(Workspace)` from one task downward, resolved
positionally. -/
def Task.workspacePath (t : Task) : Option (Nat × Screen × Nat × Workspace) := do
  let iSn ← pyIdx t.screens.length t.iActive
  let sn ← t.screens[iSn]?
  let iWn ← pyIdx sn.workspaces.length sn.iActive
  let wn ← sn.workspaces[iWn]?
  pure (iSn, sn, iWn, wn)

/-- `Tree._move_window_to_task` (src/gwm.py lines 306-327): detach the
active window, find/create the target task, append the window to the target
task's active workspace (`set_active=True`), then re-promote the original
task (`activate(promote=True)`). -/
def Tree.moveWindowToTask (sc : Nat) (r : Root) (name : String) :
    Option (Root × Bool) :=
  match pyIdx r.tasks.length r.iActive, pyGet r.tasks r.iActive with
  | some iT, some t =>
      if t.name = name then some (r, false)
      else
        match t.windowPath with
        | none => some (r, false)
        | some (iS, s, iW, w, pW) =>
            let h := w.windows.getD pW 0
            match nodeRemoveAt w.windows w.iActive pW with
            | none => none
            | some ci =>
                let w' : Workspace := ⟨ci.1, ci.2, w.masterFactor⟩
                let s1 : Screen := { s with workspaces := s.workspaces.set iW w' }
                let t1 : Task := { t with screens := t.screens.set iS s1 }
                let tasksA := r.tasks.set iT t1
                let found := findLastIdx (fun tk => tk.name == name) tasksA
                let tasksB := match found with
                  | some _ => tasksA
                  | none => tasksA ++ [createTask sc name]
                let j := match found with
                  | some j => j
                  | none => tasksA.length
                let tNew := tasksB.getD j (createTask sc name)
                match tNew.workspacePath with
                | none => none
                | some (iSn, sn, iWn, wn) =>
                    let wn' : Workspace := { wn with
                      windows := wn.windows ++ [h],
                      iActive := ((wn.windows ++ [h]).length : Int) - 1 }
                    let sn' : Screen := { sn with
                      workspaces := sn.workspaces.set iWn wn' }
                    let tNew' : Task := { tNew with screens := tNew.screens.set iSn sn' }
                    let tasksC := tasksB.set j tNew'
                    match nodeRemoveAt tasksC r.iActive iT with
                    | none => none
                    | some ci2 =>
                        let tasks4 := ci2.1 ++ [t1]
                        some ({ tasks := tasks4, iActive := (tasks4.length : Int) - 1 },
                          true)
  | _, _ => none

end Gwm

namespace Gwm

/-- The two commands a root-window name change can trigger. -/
inductive RootNameCmd where
  | moveWindowToTask (name : String)
  | switchTask (name : String)
deriving DecidableEq

/-- The root-window property-change dispatch (src/gwm.py lines 256-261): a
payload starting with `TASK_WINDOW_MOVE_MARKER` triggers
move-active-window-to-task with `payload.lstrip(TASK_WINDOW_MOVE_MARKER)`
as the task name — `lstrip` removes all leading characters drawn from the
marker's character SET, not the marker prefix —; any other payload
triggers switch-to-task with the whole payload. -/
def dispatchRootName (name : String) : RootNameCmd :=
  if pyStartswith name TASK_WINDOW_MOVE_MARKER then
    .moveWindowToTask (pyLstrip name TASK_WINDOW_MOVE_MARKER)
  else .switchTask name

/-- `Tree.on_event` for a root-window property change carrying `name`
(src/gwm.py lines 253-261; an empty/absent name is ignored). -/
def Tree.onPropertyChange (sc : Nat) (r : Root) (name : String) :
    Option (Root × Bool) :=
  if name = "" then some (r, false)
  else
    match dispatchRootName name with
    | .moveWindowToTask n => Tree.moveWindowToTask sc r n
    | .switchTask n => Tree.switchTask sc r n

/-! ### Helper lemmas on `pyIdx` / `pyGet` -/

lemma pyIdx_lt {n : Nat} {i : Int} {j : Nat} (h : pyIdx n i = some j) : j < n := by
  unfold pyIdx at h
  split at h
  · split at h
    · rename_i h0 hlt
      rcases Option.some.inj h with rfl
      omega
    · exact absurd h (by simp)
  · split at h
    · rename_i h0 hle
      rcases Option.some.inj h with rfl
      omega
    · exact absurd h (by simp)

lemma pyGet_eq_some {α : Type} {l : List α} {i : Int} {a : α}
    (h : pyGet l i = some a) :
    ∃ j, pyIdx l.length i = some j ∧ l[j]? = some a := by
  rcases Option.bind_eq_some.1 h with ⟨j, hj, hget⟩
  exact ⟨j, hj, hget⟩

lemma pyGet_mem {α : Type} {l : List α} {i : Int} {a : α}
    (h : pyGet l i = some a) : a ∈ l := by
  rcases pyGet_eq_some h with ⟨j, _, hget⟩
  exact List.getElem?_mem hget

/-! ### Claim C2: master factor clamping -/

/-- C2.  Starting from any `master_factor` and applying any non-empty finite
sequence of `adjust_master_factor` calls (arbitrary delta signs and
magnitudes), the factor after the last call — hence after each call, it
being the last call of its own prefix — lies within
`[MASTER_FACTOR_MIN, MASTER_FACTOR_MAX] = [0.1, 0.9]`. -/
theorem C2_master_factor_clamped (w : Workspace) (ds : List ℚ) (d : ℚ) :
    MASTER_FACTOR_MIN ≤
        ((ds ++ [d]).foldl Workspace.adjustMasterFactor w).masterFactor ∧
      ((ds ++ [d]).foldl Workspace.adjustMasterFactor w).masterFactor ≤
        MASTER_FACTOR_MAX := by
  rw [List.foldl_append]
  set w' := ds.foldl Workspace.adjustMasterFactor w
  simp only [List.foldl_cons, List.foldl_nil, Workspace.adjustMasterFactor]
  constructor
  · exact le_max_right _ _
  · apply max_le
    · exact min_le_right _ _
    · rw [MASTER_FACTOR_MIN, MASTER_FACTOR_MAX]
      norm_num

end Gwm

namespace Gwm

/-! ### Claim C7: root-window name dispatch -/

/-- C7 (the code's actual behaviour at the failing input).  The payload
`TASK_WINDOW_MOVE_MARKER ++ "MOVE"` — the move marker followed by the task
name `"MOVE"` — is dispatched as move-active-window-to-task with task name
`""`, NOT `"MOVE"`: `str.lstrip` strips all leading characters drawn from
the marker's character set and every character of `"MOVE"` occurs in the
marker.  A payload that does not start with the marker is dispatched as
switch-to-task with the whole payload. -/
theorem C7_move_marker_lstrip :
    dispatchRootName (TASK_WINDOW_MOVE_MARKER ++ "MOVE")
        = RootNameCmd.moveWindowToTask "" ∧
      ("" : String) ≠ "MOVE" ∧
      dispatchRootName "work" = RootNameCmd.switchTask "work" := by
  refine ⟨?_, by decide, ?_⟩ <;> decide

/-! ### Claim C10: switching to the already-active task -/

/-- C10.  `switch_task(name)` with `name` the currently active task's name
leaves the whole tree unchanged (no task created or removed, no
`active_index` anywhere changes) and triggers no layout recomputation
(the `Bool` component is `false`: `_update_window_positions` is not
called). -/
theorem C10_switch_task_same_name_noop (sc : Nat) (r : Root) (t : Task)
    (ht : pyGet r.tasks r.iActive = some t) :
    Tree.switchTask sc r t.name = some (r, false) := by
  rcases pyGet_eq_some ht with ⟨j, hj, _⟩
  simp [Tree.switchTask, hj, ht]

/-- Witness for C10 at a concrete tree. -/
theorem C10_switch_task_same_name_noop_witness :
    Tree.switchTask 1
        ⟨[⟨"default", [⟨[⟨[], 0, MASTER_FACTOR_DEFAULT⟩], 0⟩], 0⟩], 0⟩
        (Task.mk "default" [⟨[⟨[], 0, MASTER_FACTOR_DEFAULT⟩], 0⟩] 0).name
      = some (⟨[⟨"default", [⟨[⟨[], 0, MASTER_FACTOR_DEFAULT⟩], 0⟩], 0⟩], 0⟩, false) :=
  C10_switch_task_same_name_noop 1 _ _ rfl

end Gwm

namespace Gwm

/-! ### Claim C4: switching to a fresh task name -/

lemma findLastIdx_eq_none {α : Type} {p : α → Bool} {l : List α}
    (h : ∀ a ∈ l, p a = false) : findLastIdx p l = none := by
  induction l with
  | nil => rfl
  | cons a l ih =>
      rw [findLastIdx, ih (fun x hx => h x (List.mem_cons_of_mem a hx))]
      simp [h a (List.mem_cons_self a l)]

lemma nodeRemoveAt_fst {α : Type} {c : List α} {ia : Int} {p : Nat}
    {ci : List α × Int} (h : nodeRemoveAt c ia p = some ci) :
    ci.1 = c.eraseIdx p := by
  rcases Option.map_eq_some'.1 h with ⟨j, _, hv⟩
  rw [← hv]
  dsimp only [nodeRemoveAt]
  split <;> rfl

/-- `switchTaskGo` on a name carried by no existing task: the resulting task
list holds exactly one task with that name, the freshly created one. -/
lemma switchTaskGo_fresh (sc : Nat) (r : Root) (name : String)
    (prev : Option (Nat × Task)) (r' : Root) (b : Bool)
    (hfresh : ∀ t ∈ r.tasks, t.name ≠ name)
    (hprev : ∀ iP tp, prev = some (iP, tp) → iP < r.tasks.length)
    (hrun : Tree.switchTaskGo sc r name prev = some (r', b)) :
    r'.tasks.filter (fun tk => tk.name == name) = [createTask sc name] := by
  have hfound : findLastIdx (fun tk => tk.name == name) r.tasks = none :=
    findLastIdx_eq_none (fun t ht => beq_eq_false_iff_ne.2 (hfresh t ht))
  have hfilter_new : List.filter (fun tk => tk.name == name) [createTask sc name]
      = [createTask sc name] := by
    simp [createTask]
  have hfilter_of_sub : ∀ l : List Task, (∀ x ∈ l, x ∈ r.tasks) →
      List.filter (fun tk => tk.name == name) l = [] := by
    intro l hl
    exact List.filter_eq_nil_iff.2 fun x hx => by
      simp only [Bool.not_eq_true, beq_eq_false_iff_ne, ne_eq]
      exact hfresh x (hl x hx)
  rcases prev with _ | ⟨iP, tp⟩ <;>
    simp only [Tree.switchTaskGo, hfound, List.getD_eq_getElem?_getD,
      List.getElem?_concat_length, Option.getD_some] at hrun
  · rcases hna : nodeRemoveAt (r.tasks ++ [createTask sc name]) r.iActive
        r.tasks.length with _ | ci
    · rw [hna] at hrun
      exact absurd hrun (by simp)
    · rw [hna] at hrun
      simp only [Option.some.injEq, Prod.mk.injEq] at hrun
      rcases hrun with ⟨hr', _⟩
      have hci : ci.1 = r.tasks := by
        rw [nodeRemoveAt_fst hna,
          List.eraseIdx_append_of_length_le (le_refl r.tasks.length)]
        simp
      rw [← hr']
      simp only [List.filter_append, hci]
      rw [hfilter_of_sub r.tasks (fun x hx => hx), hfilter_new]
      simp
  · have hlt : iP < r.tasks.length := hprev iP tp rfl
    by_cases he : tp.allWindows = []
    · rw [if_pos he] at hrun
      rcases hna : nodeRemoveAt (r.tasks ++ [createTask sc name]) r.iActive iP
        with _ | ci0
      · rw [hna] at hrun
        exact absurd hrun (by simp)
      · rw [hna] at hrun
        simp only [Option.map_some', if_pos hlt] at hrun
        have hci0 : ci0.1 = r.tasks.eraseIdx iP ++ [createTask sc name] := by
          rw [nodeRemoveAt_fst hna, List.eraseIdx_append_of_lt_length hlt]
        have hlen0 : (r.tasks.eraseIdx iP).length = r.tasks.length - 1 := by
          rw [List.length_eraseIdx]
          simp [hlt]
        rcases hnb : nodeRemoveAt ci0.1 ci0.2 (r.tasks.length - 1) with _ | ci
        · rw [hnb] at hrun
          exact absurd hrun (by simp)
        · rw [hnb] at hrun
          simp only [Option.some.injEq, Prod.mk.injEq] at hrun
          rcases hrun with ⟨hr', _⟩
          have hci : ci.1 = r.tasks.eraseIdx iP := by
            rw [nodeRemoveAt_fst hnb, hci0, ← hlen0,
              List.eraseIdx_append_of_length_le (le_refl _)]
            simp
          rw [← hr']
          simp only [List.filter_append, hci]
          rw [hfilter_of_sub (r.tasks.eraseIdx iP)
            (fun x hx => (List.eraseIdx_sublist r.tasks iP).mem hx), hfilter_new]
          simp
    · rw [if_neg he] at hrun
      dsimp only at hrun
      rcases hna : nodeRemoveAt (r.tasks ++ [createTask sc name]) r.iActive
          r.tasks.length with _ | ci
      · rw [hna] at hrun
        exact absurd hrun (by simp)
      · rw [hna] at hrun
        simp only [Option.some.injEq, Prod.mk.injEq] at hrun
        rcases hrun with ⟨hr', _⟩
        have hci : ci.1 = r.tasks := by
          rw [nodeRemoveAt_fst hna,
            List.eraseIdx_append_of_length_le (le_refl r.tasks.length)]
          simp
        rw [← hr']
        simp only [List.filter_append, hci]
        rw [hfilter_of_sub r.tasks (fun x hx => hx), hfilter_new]
        simp

/-- C4.  For a task name carried by no current task, `switch_task(name)`
creates exactly one new Task — the task list afterwards holds exactly one
task with that name, the freshly built one — whose Screen count equals the
monitor count `sc` queried at that moment, each Screen holding exactly
`N_WORKSPACES` workspaces, all childless. -/
theorem C4_switch_task_creates_task (sc : Nat) (r : Root) (name : String)
    (r' : Root) (b : Bool)
    (hfresh : ∀ t ∈ r.tasks, t.name ≠ name)
    (hrun : Tree.switchTask sc r name = some (r', b)) :
    r'.tasks.filter (fun tk => tk.name == name) = [createTask sc name] ∧
      (createTask sc name).screens.length = sc ∧
      (∀ s ∈ (createTask sc name).screens, s.workspaces.length = N_WORKSPACES ∧
        ∀ w ∈ s.workspaces, w.windows = []) := by
  refine ⟨?_, by simp [createTask], fun s hs => ?_⟩
  case refine_2 =>
    have hs' : s = ⟨List.replicate N_WORKSPACES ⟨[], 0, MASTER_FACTOR_DEFAULT⟩, 0⟩ :=
      List.eq_of_mem_replicate hs
    subst hs'
    refine ⟨by simp, fun w hw => ?_⟩
    have hw' : w = ⟨[], 0, MASTER_FACTOR_DEFAULT⟩ := List.eq_of_mem_replicate hw
    subst hw'
    rfl
  unfold Tree.switchTask at hrun
  rcases h1 : pyIdx r.tasks.length r.iActive with _ | iP <;>
    rcases h2 : pyGet r.tasks r.iActive with _ | tp <;>
    rw [h1, h2] at hrun
  · exact switchTaskGo_fresh sc r name none r' b hfresh (by simp) hrun
  · exact switchTaskGo_fresh sc r name none r' b hfresh (by simp) hrun
  · exact switchTaskGo_fresh sc r name none r' b hfresh (by simp) hrun
  · have hne : tp.name ≠ name := hfresh tp (pyGet_mem h2)
    dsimp only at hrun
    rw [if_neg hne] at hrun
    refine switchTaskGo_fresh sc r name (some (iP, tp)) r' b hfresh ?_ hrun
    rintro iP' tp' heq
    rcases Option.some.inj heq with heq2
    rcases Prod.mk.injEq .. ▸ heq2 with ⟨hip, _⟩
    rw [← hip]
    exact pyIdx_lt h1

/-- Witness for C4: a tree holding one task `"default"`, switching to the
fresh name `"work"` with one monitor. -/
theorem C4_switch_task_creates_task_witness :
    (Root.mk [createTask 1 "work"] 0).tasks.filter (fun tk => tk.name == "work")
        = [createTask 1 "work"] ∧
      (createTask 1 "work").screens.length = 1 ∧
      (∀ s ∈ (createTask 1 "work").screens, s.workspaces.length = N_WORKSPACES ∧
        ∀ w ∈ s.workspaces, w.windows = []) :=
  C4_switch_task_creates_task 1 ⟨[createTask 1 "default"], 0⟩ "work"
    ⟨[createTask 1 "work"], 0⟩ true
    (by
      intro t ht
      rcases List.mem_singleton.1 ht with rfl
      simp [createTask])
    (by rfl)

end Gwm

namespace Gwm

/-! ### The layout pass (src/gwm.py lines 406-487) -/

/-- The X-protocol geometry environment: `_get_screen_count()` and
`_get_screen_data(i, "x"/"y"/"width"/"height")` (src/gwm.py lines 519-523),
queried live during each layout pass. -/
structure XEnv where
  screenCount : Nat
  screenX : Nat → Int
  screenY : Nat → Int
  screenWidth : Nat → Int
  screenHeight : Nat → Int

/-- One `window.configure(...)` call issued during a layout pass; `none`
fields are keyword parameters the call does not pass (the parking configure
passes only `x` and `y`). -/
structure ConfigureCall where
  win : Nat
  x : Int
  y : Int
  width : Option Int
  height : Option Int
  borderWidth : Option Int
deriving DecidableEq

/-- The parking call `window.configure(x=position_hidden, y=position_hidden)`
with `position_hidden = INT16_MAX`, issued for every tracked window at the
start of a layout pass (src/gwm.py lines 412-414). -/
def parkCall (h : Nat) : ConfigureCall := ⟨h, INT16_MAX, INT16_MAX, none, none, none⟩

/-- The per-workspace tiling arithmetic of `_update_window_positions`
(src/gwm.py lines 433-486): the configure calls issued for the windows of
one workspace on the monitor rectangle `(sx, sy, sw, sh)`.  `master` is the
last window; with no stack it gets the full rectangle at border 0; else the
orientation is vertical when `screen_width > screen_height`
(`master_width = int(screen_width * master_factor)`, stack slots
`screen_height // len(stack)` tall, most recently promoted stack window
first) and horizontal otherwise, and every rendered window shrinks by
`2 * WINDOW_BORDER_WIDTH` in both configure dimensions. -/
def layoutWorkspace (sx sy sw sh : Int) (mf : ℚ) (windows : List Nat) :
    List ConfigureCall :=
  match windows.getLast? with
  | none => []
  | some master =>
      let stack := windows.dropLast
      if stack.length = 0 then
        [⟨master, sx, sy, some sw, some sh, some 0⟩]
      else if sh < sw then
        let mw : Int := pyInt ((sw : ℚ) * mf)
        let mh : Int := sh
        let stw : Int := sw - mw
        let sth : Int := Int.fdiv sh (stack.length : Int)
        ⟨master, sx, sy, some (mw - 2 * WINDOW_BORDER_WIDTH),
          some (mh - 2 * WINDOW_BORDER_WIDTH), some WINDOW_BORDER_WIDTH⟩ ::
        (stack.reverse.enum.map fun iw =>
          ⟨iw.2, sx + mw, sy + (iw.1 : Int) * sth,
            some (stw - 2 * WINDOW_BORDER_WIDTH),
            some (sth - 2 * WINDOW_BORDER_WIDTH), some WINDOW_BORDER_WIDTH⟩)
      else
        let mw : Int := sw
        let mh : Int := pyInt ((sh : ℚ) * mf)
        let stw : Int := Int.fdiv sw (stack.length : Int)
        let sth : Int := sh - mh
        ⟨master, sx, sy, some (mw - 2 * WINDOW_BORDER_WIDTH),
          some (mh - 2 * WINDOW_BORDER_WIDTH), some WINDOW_BORDER_WIDTH⟩ ::
        (stack.reverse.enum.map fun iw =>
          ⟨iw.2, sx + (iw.1 : Int) * stw, sy + mh,
            some (stw - 2 * WINDOW_BORDER_WIDTH),
            some (sth - 2 * WINDOW_BORDER_WIDTH), some WINDOW_BORDER_WIDTH⟩)

/-- `Tree._update_window_positions` (src/gwm.py lines 406-487) as the list
of configure calls it issues: assert no duplicate handles; park (and map)
every tracked window at `(INT16_MAX, INT16_MAX)`; then lay out the active
task's screens (asserting an active task, at least one screen, no more
screens than monitors, and an active workspace per screen).  `none` models
a failing assert / `IndexError`. -/
def Tree.updateWindowPositions (env : XEnv) (r : Root) :
    Option (List ConfigureCall) := do
  let ids := r.allWindows
  if (ids.filter fun i => 1 < ids.count i) ≠ [] then none
  else do
    let parks := ids.map parkCall
    let iT ← pyIdx r.tasks.length r.iActive
    let t ← r.tasks[iT]?
    if t.screens.length = 0 then none
    else if env.screenCount < t.screens.length then none
    else do
      let parts ← optMap (fun is : Nat × Screen => do
          let iW ← pyIdx is.2.workspaces.length is.2.iActive
          let w ← is.2.workspaces[iW]?
          some (layoutWorkspace (env.screenX is.1) (env.screenY is.1)
            (env.screenWidth is.1) (env.screenHeight is.1)
            w.masterFactor w.windows)) t.screens.enum
      some (parks ++ parts.flatten)

end Gwm

namespace Gwm

/-! ### Claim C5: concrete tiling arithmetic on a 1920x1080 monitor -/

/-- C5 counterexample.  On a `1920×1080` landscape monitor with
`master_factor = 0.6` and two windows, the single stack window's configured
height (the `height=` parameter of its configure call) is
`1080 - 2 * WINDOW_BORDER_WIDTH = 1076`, not `1080` as the claim states
(both configure calls pass height `1076`). -/
theorem C5_counterexample :
    (layoutWorkspace 0 0 1920 1080 (3 / 5) [1, 2]).map ConfigureCall.height
        = [some 1076, some 1076] ∧ ¬ ((1076 : Int) = 1080) := by
  exact ⟨rfl, by decide⟩

/-- C5 (amended).  Layout on a `1920×1080` landscape monitor:
* one window: the full monitor rectangle `(sx, sy, 1920, 1080)` at border 0;
* two windows, `master_factor = 3/5`: the master's configured width is
  `int(1920 * (3/5)) - 2 * WINDOW_BORDER_WIDTH` (`= 1148`), and the single
  stack window's configured height is `1080 - 2 * WINDOW_BORDER_WIDTH`
  (`= 1076`; its slot height `1080 // 1 = 1080` shrinks by twice the border
  width in the configure call). -/
theorem C5_layout_1920x1080 (sx sy : Int) (mf : ℚ) (h h1 h2 : Nat) :
    layoutWorkspace sx sy 1920 1080 mf [h]
        = [⟨h, sx, sy, some 1920, some 1080, some 0⟩] ∧
      layoutWorkspace sx sy 1920 1080 (3 / 5) [h1, h2]
        = [⟨h2, sx, sy,
              some (pyInt ((1920 : ℚ) * (3 / 5)) - 2 * WINDOW_BORDER_WIDTH),
              some (1080 - 2 * WINDOW_BORDER_WIDTH), some WINDOW_BORDER_WIDTH⟩,
           ⟨h1, sx + 1152, sy,
              some (768 - 2 * WINDOW_BORDER_WIDTH),
              some (1080 - 2 * WINDOW_BORDER_WIDTH), some WINDOW_BORDER_WIDTH⟩] ∧
      pyInt ((1920 : ℚ) * (3 / 5)) - 2 * WINDOW_BORDER_WIDTH = 1148 := by
  have hmul : ((1920 : ℚ) * (3 / 5)) = 1152 := by norm_num
  have hmw : pyInt ((1920 : ℚ) * (3 / 5)) = 1152 := by
    rw [hmul]
    decide
  refine ⟨rfl, ?_, by rw [hmw]; decide⟩
  show layoutWorkspace sx sy 1920 1080 (3 / 5) [h1, h2] = _
  simp only [layoutWorkspace, List.getLast?, List.dropLast, List.length_cons,
    List.length_nil, List.reverse_cons, List.reverse_nil, List.nil_append,
    List.enum, hmw]
  norm_num
  exact ⟨by decide, by decide⟩

/-! ### Claim C8: the parking phase of a layout pass -/

/-- C8 counterexample.  In a tree whose active workspace holds window `5`
and whose inactive sibling workspace holds window `7`, the layout pass
parks window `7` (which is not on the active path) at
`(INT16_MAX, INT16_MAX) = (32767, 32767)` — a coordinate that is NOT
strictly outside the 16-bit signed coordinate range
`[-2^15, 2^15 - 1]`: it is its maximum value. -/
theorem C8_counterexample :
    Tree.updateWindowPositions ⟨1, fun _ => 0, fun _ => 0, fun _ => 100, fun _ => 100⟩
        ⟨[⟨"t", [⟨[⟨[5], 0, MASTER_FACTOR_DEFAULT⟩,
                    ⟨[7], 0, MASTER_FACTOR_DEFAULT⟩], 0⟩], 0⟩], 0⟩
        = some [parkCall 5, parkCall 7, ⟨5, 0, 0, some 100, some 100, some 0⟩] ∧
      (parkCall 7).x = 32767 ∧ (parkCall 7).y = 32767 ∧
      ¬ ((parkCall 7).x < -(2 ^ 15) ∨ (2 ^ 15) - 1 < (parkCall 7).x) := by
  refine ⟨rfl, by decide, by decide, by decide⟩

/-- C8 (amended).  Whenever a layout pass succeeds, its trace starts with a
parking configure for EVERY tracked window (in particular every window not
on the active Task/Workspace path) at `(INT16_MAX, INT16_MAX)`, before any
of the calls that position the active subtree's windows; `INT16_MAX =
2^15 - 1` is the maximum value of the 16-bit signed coordinate range (its
boundary, not strictly outside it). -/
theorem C8_parking_first (env : XEnv) (r : Root) (tr : List ConfigureCall)
    (hrun : Tree.updateWindowPositions env r = some tr) :
    (∃ rest, tr = r.allWindows.map parkCall ++ rest) ∧
      (∀ hw : Nat, (parkCall hw).x = INT16_MAX ∧ (parkCall hw).y = INT16_MAX) ∧
      INT16_MAX = 2 ^ 15 - 1 := by
  refine ⟨?_, fun hw => ⟨rfl, rfl⟩, by decide⟩
  unfold Tree.updateWindowPositions at hrun
  dsimp only at hrun
  split at hrun
  · exact absurd hrun (by simp)
  · rcases Option.bind_eq_some.1 hrun with ⟨iT, hiT, hrun⟩
    rcases Option.bind_eq_some.1 hrun with ⟨t, ht, hrun⟩
    split at hrun
    · exact absurd hrun (by simp)
    · split at hrun
      · exact absurd hrun (by simp)
      · rcases Option.bind_eq_some.1 hrun with ⟨parts, hparts, hrun⟩
        exact ⟨parts.flatten, (Option.some.inj hrun).symm⟩

/-- Witness for C8 at the concrete tree of the counterexample. -/
theorem C8_parking_first_witness :
    (∃ rest,
        [parkCall 5, parkCall 7, (⟨5, 0, 0, some 100, some 100, some 0⟩ : ConfigureCall)]
          = (Root.mk [⟨"t", [⟨[⟨[5], 0, MASTER_FACTOR_DEFAULT⟩,
              ⟨[7], 0, MASTER_FACTOR_DEFAULT⟩], 0⟩], 0⟩] 0).allWindows.map parkCall
            ++ rest) ∧
      (∀ hw : Nat, (parkCall hw).x = INT16_MAX ∧ (parkCall hw).y = INT16_MAX) ∧
      INT16_MAX = 2 ^ 15 - 1 :=
  C8_parking_first ⟨1, fun _ => 0, fun _ => 0, fun _ => 100, fun _ => 100⟩
    ⟨[⟨"t", [⟨[⟨[5], 0, MASTER_FACTOR_DEFAULT⟩,
        ⟨[7], 0, MASTER_FACTOR_DEFAULT⟩], 0⟩], 0⟩], 0⟩
    [parkCall 5, parkCall 7, ⟨5, 0, 0, some 100, some 100, some 0⟩] rfl

end Gwm

namespace Gwm

/-! ### Claim C3: the no-duplicate-handle invariant

The window-handle multiset of each level of the tree, and how every tree
operation transforms it.  All `_i_active_child` bookkeeping is irrelevant
here: only the `windows` lists matter. -/

/-- The multiset of window handles of one workspace. -/
def Workspace.winMS (w : Workspace) : Multiset Nat := (w.windows : Multiset Nat)

/-- The multiset of window handles of one screen. -/
def Screen.winMS (s : Screen) : Multiset Nat := (s.workspaces.map Workspace.winMS).sum

/-- The multiset of window handles of one task. -/
def Task.winMS (t : Task) : Multiset Nat := (t.screens.map Screen.winMS).sum

/-- The multiset of all tracked window handles. -/
def Root.winMS (r : Root) : Multiset Nat := (r.tasks.map Task.winMS).sum

lemma coe_flatten_map {α : Type} (f : α → List Nat) (l : List α) :
    (((l.map f).flatten : List Nat) : Multiset Nat)
      = (l.map fun a => ((f a : List Nat) : Multiset Nat)).sum := by
  induction l with
  | nil => rfl
  | cons a l ih =>
      simp only [List.map_cons, List.flatten_cons, List.sum_cons, ← ih]
      rw [← Multiset.coe_add]

lemma screen_allWindows_ms (s : Screen) :
    ((s.allWindows : List Nat) : Multiset Nat) = s.winMS := by
  unfold Screen.allWindows Screen.winMS
  rw [coe_flatten_map]
  rfl

lemma task_allWindows_ms (t : Task) :
    ((t.allWindows : List Nat) : Multiset Nat) = t.winMS := by
  unfold Task.allWindows Task.winMS
  rw [coe_flatten_map]
  congr 1
  exact List.map_congr_left fun s _ => screen_allWindows_ms s

lemma root_allWindows_ms (r : Root) :
    ((r.allWindows : List Nat) : Multiset Nat) = r.winMS := by
  unfold Root.allWindows Root.winMS
  rw [coe_flatten_map]
  congr 1
  exact List.map_congr_left fun t _ => task_allWindows_ms t

lemma allWindows_nodup_iff (r : Root) : r.allWindows.Nodup ↔ r.winMS.Nodup := by
  rw [← root_allWindows_ms]
  exact (Multiset.coe_nodup).symm

/-- Replacing the element at a valid position changes a mapped sum by the
difference of the images. -/
lemma sum_map_set {α : Type} (f : α → Multiset Nat) (l : List α) (i : Nat)
    (x a : α) (ha : l[i]? = some a) :
    ((l.set i x).map f).sum + f a = (l.map f).sum + f x := by
  induction l generalizing i with
  | nil => simp at ha
  | cons b l ih =>
      cases i with
      | zero =>
          rw [List.getElem?_cons_zero] at ha
          rcases Option.some.inj ha with rfl
          simp only [List.set_cons_zero, List.map_cons, List.sum_cons]
          abel
      | succ i =>
          simp only [List.getElem?_cons_succ] at ha
          simp only [List.set_cons_succ, List.map_cons, List.sum_cons]
          have := ih i ha
          calc f b + ((l.set i x).map f).sum + f a
              = f b + (((l.set i x).map f).sum + f a) := by abel
            _ = f b + ((l.map f).sum + f x) := by rw [this]
            _ = f b + (l.map f).sum + f x := by abel

/-- Erasing the element at a valid position removes exactly its image from
a mapped sum. -/
lemma sum_map_eraseIdx {α : Type} (f : α → Multiset Nat) (l : List α) (i : Nat)
    (a : α) (ha : l[i]? = some a) :
    ((l.eraseIdx i).map f).sum + f a = (l.map f).sum := by
  induction l generalizing i with
  | nil => simp at ha
  | cons b l ih =>
      cases i with
      | zero =>
          rw [List.getElem?_cons_zero] at ha
          rcases Option.some.inj ha with rfl
          simp only [List.eraseIdx_cons_zero, List.map_cons, List.sum_cons]
          abel
      | succ i =>
          simp only [List.getElem?_cons_succ] at ha
          simp only [List.eraseIdx_cons_succ, List.map_cons, List.sum_cons]
          have := ih i ha
          calc f b + ((l.eraseIdx i).map f).sum + f a
              = f b + (((l.eraseIdx i).map f).sum + f a) := by abel
            _ = f b + (l.map f).sum := by rw [this]

/-- Erasing the element at a valid position of a list of handles. -/
lemma coe_eraseIdx_add {l : List Nat} {p : Nat} {a : Nat} (hp : l[p]? = some a) :
    ((l.eraseIdx p : List Nat) : Multiset Nat) + {a} = (l : Multiset Nat) := by
  induction l generalizing p with
  | nil => simp at hp
  | cons b l ih =>
      cases p with
      | zero =>
          rw [List.getElem?_cons_zero] at hp
          rcases Option.some.inj hp with rfl
          simp only [List.eraseIdx_cons_zero, ← Multiset.cons_coe]
          rw [add_comm, Multiset.singleton_add]
      | succ p =>
          simp only [List.getElem?_cons_succ] at hp
          simp only [List.eraseIdx_cons_succ, ← Multiset.cons_coe]
          rw [← ih hp]
          rw [← Multiset.singleton_add, ← Multiset.singleton_add]
          abel

lemma coe_append_ms (l₁ l₂ : List Nat) :
    ((l₁ ++ l₂ : List Nat) : Multiset Nat) = (l₁ : Multiset Nat) + (l₂ : Multiset Nat) :=
  (Multiset.coe_add l₁ l₂).symm

end Gwm

namespace Gwm

/-- Cancellation pattern for the three-level path replacement. -/
lemma add_shuffle_cancel3 {A B C D E F G H : Multiset Nat}
    (h1 : A + B = C + D) (h2 : D + E = B + F) (h3 : F + G = E + H) :
    A + G = C + H := by
  have key : (A + G) + (B + D + E + F) = (C + H) + (B + D + E + F) := by
    calc (A + G) + (B + D + E + F) = (A + B) + ((D + E) + (F + G)) := by abel
      _ = (C + D) + ((B + F) + (E + H)) := by rw [h1, h2, h3]
      _ = (C + H) + (B + D + E + F) := by abel
  exact add_right_cancel key

/-- Cancellation pattern for the two-level replacement. -/
lemma add_shuffle_cancel2 {A B C D E F : Multiset Nat}
    (h1 : A + B = C + D) (h2 : D + E = B + F) : A + E = C + F := by
  have key : (A + E) + (B + D) = (C + F) + (B + D) := by
    calc (A + E) + (B + D) = (A + B) + (D + E) := by abel
      _ = (C + D) + (B + F) := by rw [h1, h2]
      _ = (C + F) + (B + D) := by abel
  exact add_right_cancel key

lemma getElem?_eraseIdx_of_lt {α : Type} {l : List α} {i j : Nat} (h : j < i) :
    (l.eraseIdx i)[j]? = l[j]? := by
  induction l generalizing i j with
  | nil => simp
  | cons b l ih =>
      cases i with
      | zero => omega
      | succ i =>
          cases j with
          | zero => simp
          | succ j =>
              simp only [List.eraseIdx_cons_succ, List.getElem?_cons_succ]
              exact ih (by omega)

lemma getElem?_eraseIdx_of_le {α : Type} {l : List α} {i j : Nat} (h : i ≤ j) :
    (l.eraseIdx i)[j]? = l[j + 1]? := by
  induction l generalizing i j with
  | nil => simp
  | cons b l ih =>
      cases i with
      | zero => simp
      | succ i =>
          cases j with
          | zero => omega
          | succ j =>
              simp only [List.eraseIdx_cons_succ, List.getElem?_cons_succ]
              exact ih (by omega)

lemma findLastIdx_spec {α : Type} {p : α → Bool} {l : List α} {j : Nat}
    (h : findLastIdx p l = some j) : ∃ a, l[j]? = some a ∧ p a = true := by
  induction l generalizing j with
  | nil => simp [findLastIdx] at h
  | cons b l ih =>
      rw [findLastIdx] at h
      rcases hrec : findLastIdx p l with _ | j' <;> rw [hrec] at h <;> dsimp only at h
      · split at h
        · rcases Option.some.inj h with rfl
          exact ⟨b, by simp, by assumption⟩
        · exact absurd h (by simp)
      · rcases Option.some.inj h with rfl
        rcases ih hrec with ⟨a, hget, hp⟩
        exact ⟨a, by simpa using hget, hp⟩

lemma getD_of_getElem? {α : Type} {l : List α} {j : Nat} {a : α} (d : α)
    (h : l[j]? = some a) : l.getD j d = a := by
  rw [List.getD_eq_getElem?_getD, h]
  rfl

lemma createTask_winMS (sc : Nat) (name : String) :
    (createTask sc name).winMS = 0 := by
  unfold createTask Task.winMS
  have hz : ∀ s ∈ List.replicate sc
      (Screen.mk (List.replicate N_WORKSPACES ⟨[], 0, MASTER_FACTOR_DEFAULT⟩) 0),
      Screen.winMS s = 0 := by
    intro s hs
    rcases List.eq_of_mem_replicate hs with rfl
    unfold Screen.winMS
    have : ∀ w ∈ List.replicate N_WORKSPACES
        (Workspace.mk [] 0 MASTER_FACTOR_DEFAULT), Workspace.winMS w = 0 := by
      intro w hw
      rcases List.eq_of_mem_replicate hw with rfl
      rfl
    rw [List.map_congr_left this]
    simp
  rw [List.map_congr_left hz]
  simp

lemma taskWinMS_zero_of_allWindows_nil {t : Task} (h : t.allWindows = []) :
    t.winMS = 0 := by
  rw [← task_allWindows_ms, h]
  rfl

lemma resolveActivePath_spec {r : Root} {pa : ActivePath}
    (h : r.resolveActivePath = some pa) :
    r.tasks[pa.iT]? = some pa.task ∧ pa.task.screens[pa.iS]? = some pa.screen ∧
      pa.screen.workspaces[pa.iW]? = some pa.workspace := by
  unfold Root.resolveActivePath at h
  rcases Option.bind_eq_some.1 h with ⟨iT, hiT, h⟩
  rcases Option.bind_eq_some.1 h with ⟨t, ht, h⟩
  rcases Option.bind_eq_some.1 h with ⟨iS, hiS, h⟩
  rcases Option.bind_eq_some.1 h with ⟨s, hs, h⟩
  rcases Option.bind_eq_some.1 h with ⟨iW, hiW, h⟩
  rcases Option.bind_eq_some.1 h with ⟨w, hw, h⟩
  rcases Option.some.inj h with rfl
  exact ⟨ht, hs, hw⟩

/-- Replacing the whole workspace list of the screen at a resolved position:
the handle multiset changes by the difference of the workspace-list sums. -/
lemma winMS_replace_workspaces (r : Root) (iT iS : Nat) (t : Task) (s : Screen)
    (wss' : List Workspace) (sIA tIA rIA : Int)
    (ht : r.tasks[iT]? = some t) (hs : t.screens[iS]? = some s) :
    (Root.mk (r.tasks.set iT
        { t with screens := t.screens.set iS (Screen.mk wss' sIA), iActive := tIA })
        rIA).winMS + s.winMS
      = r.winMS + (Screen.mk wss' sIA).winMS :=
  add_shuffle_cancel2
    (sum_map_set Task.winMS r.tasks iT
      { t with screens := t.screens.set iS (Screen.mk wss' sIA), iActive := tIA } t ht)
    (sum_map_set Screen.winMS t.screens iS (Screen.mk wss' sIA) s hs)

/-- `rebuildPath` changes the handle multiset by the difference between the
old and new active-path workspace. -/
lemma winMS_rebuildPath (r : Root) (pa : ActivePath) (w' : Workspace)
    (sIA tIA rIA : Int)
    (ht : r.tasks[pa.iT]? = some pa.task)
    (hs : pa.task.screens[pa.iS]? = some pa.screen)
    (hw : pa.screen.workspaces[pa.iW]? = some pa.workspace) :
    (r.rebuildPath pa w' sIA tIA rIA).winMS + pa.workspace.winMS
      = r.winMS + w'.winMS :=
  add_shuffle_cancel3
    (sum_map_set Task.winMS r.tasks pa.iT _ pa.task ht)
    (sum_map_set Screen.winMS pa.task.screens pa.iS _ pa.screen hs)
    (sum_map_set Workspace.winMS pa.screen.workspaces pa.iW w' pa.workspace hw)

/-- Re-appending the erased element leaves the handle multiset unchanged. -/
lemma eraseIdx_append_winMS {l : List Nat} {p : Nat} (hp : p < l.length) :
    ((l.eraseIdx p ++ [l.getD p 0] : List Nat) : Multiset Nat) = (l : Multiset Nat) := by
  have hget : l[p]? = some (l.getD p 0) := by
    rw [List.getElem?_eq_getElem hp, List.getD_eq_getElem?_getD,
      List.getElem?_eq_getElem hp]
    rfl
  rw [coe_append_ms]
  exact coe_eraseIdx_add hget

end Gwm

namespace Gwm

/-! ### Per-operation handle-multiset lemmas -/

lemma winMS_set_task {r : Root} {iT : Nat} {t t' : Task} (ht : r.tasks[iT]? = some t)
    (heq : t'.winMS = t.winMS) (ia : Int) :
    (Root.mk (r.tasks.set iT t') ia).winMS = r.winMS := by
  have h := sum_map_set Task.winMS r.tasks iT t' t ht
  rw [heq] at h
  exact add_right_cancel h

lemma rebuildPath_winMS_eq {r : Root} {pa : ActivePath} {w' : Workspace}
    {sIA tIA rIA : Int}
    (ht : r.tasks[pa.iT]? = some pa.task)
    (hs : pa.task.screens[pa.iS]? = some pa.screen)
    (hw : pa.screen.workspaces[pa.iW]? = some pa.workspace)
    (heq : w'.winMS = pa.workspace.winMS) :
    (r.rebuildPath pa w' sIA tIA rIA).winMS = r.winMS := by
  have hrb := winMS_rebuildPath r pa w' sIA tIA rIA ht hs hw
  rw [heq] at hrb
  exact add_right_cancel hrb

lemma adjustMasterFactorCmd_winMS {r r' : Root} {q : ℚ}
    (h : Tree.adjustMasterFactorCmd r q = some r') : r'.winMS = r.winMS := by
  unfold Tree.adjustMasterFactorCmd at h
  rcases hpa : r.resolveActivePath with _ | pa <;> rw [hpa] at h <;> dsimp only at h
  · exact absurd h (by simp)
  · rcases resolveActivePath_spec hpa with ⟨ht, hs, hw⟩
    rcases Option.some.inj h with rfl
    exact rebuildPath_winMS_eq ht hs hw rfl

lemma switchWorkspace_winMS {r r' : Root} {i : Nat}
    (h : Tree.switchWorkspace r i = some r') : r'.winMS = r.winMS := by
  unfold Tree.switchWorkspace at h
  rcases hpa : r.resolveActivePath with _ | pa <;> rw [hpa] at h <;> dsimp only at h
  · exact absurd h (by simp)
  · rcases resolveActivePath_spec hpa with ⟨ht, hs, hw⟩
    by_cases hiw : i = pa.iW
    · rw [if_pos hiw] at h
      rcases Option.some.inj h with rfl
      rfl
    · rw [if_neg hiw] at h
      rcases hws : pa.screen.workspaces[i]? with _ | wI <;> rw [hws] at h <;> dsimp only at h
      · exact absurd h (by simp)
      · rcases Option.some.inj h with rfl
        exact rebuildPath_winMS_eq ht hs hw rfl

lemma focusWindowByOffset_winMS {r r' : Root} {off : Int}
    (h : Tree.focusWindowByOffset r off = some r') : r'.winMS = r.winMS := by
  unfold Tree.focusWindowByOffset at h
  rcases hpa : r.resolveActivePath with _ | pa <;> rw [hpa] at h <;> dsimp only at h
  · rcases Option.some.inj h with rfl
    rfl
  · rcases resolveActivePath_spec hpa with ⟨ht, hs, hw⟩
    rcases hpw : pyIdx pa.workspace.windows.length pa.workspace.iActive with _ | pW <;>
      rw [hpw] at h <;> dsimp only at h
    · rcases Option.some.inj h with rfl
      rfl
    · rcases Option.some.inj h with rfl
      exact rebuildPath_winMS_eq ht hs hw rfl

lemma focusScreenByOffset_winMS {r r' : Root} {off : Int}
    (h : Tree.focusScreenByOffset r off = some r') : r'.winMS = r.winMS := by
  unfold Tree.focusScreenByOffset at h
  rcases Option.bind_eq_some.1 h with ⟨iT, hiT, h⟩
  rcases Option.bind_eq_some.1 h with ⟨t, ht, h⟩
  rcases Option.bind_eq_some.1 h with ⟨iS, hiS, h⟩
  rcases Option.bind_eq_some.1 h with ⟨s, hs, h⟩
  rcases Option.some.inj h with rfl
  refine winMS_set_task ht ?_ _
  rfl

lemma promoteWindow_winMS {r r' : Root}
    (h : Tree.promoteWindow r = some r') : r'.winMS = r.winMS := by
  unfold Tree.promoteWindow at h
  rcases hpa : r.resolveActivePath with _ | pa <;> rw [hpa] at h <;> dsimp only at h
  · rcases Option.some.inj h with rfl
    rfl
  · rcases resolveActivePath_spec hpa with ⟨ht, hs, hw⟩
    rcases hpw : pyIdx pa.workspace.windows.length pa.workspace.iActive with _ | pW <;>
      rw [hpw] at h <;> dsimp only at h
    · rcases Option.some.inj h with rfl
      rfl
    · have hpwlt := pyIdx_lt hpw
      by_cases htop : pW ≠ pa.workspace.windows.length - 1
      · rw [if_pos htop] at h
        rcases hci : nodeRemoveAt pa.workspace.windows pa.workspace.iActive pW
            with _ | ci <;> rw [hci] at h <;> dsimp only at h
        · exact absurd h (by simp)
        · rcases Option.some.inj h with rfl
          refine rebuildPath_winMS_eq ht hs hw ?_
          rw [Workspace.winMS, Workspace.winMS]
          rw [nodeRemoveAt_fst hci]
          exact eraseIdx_append_winMS hpwlt
      · rw [if_neg htop] at h
        by_cases hn2 : pa.workspace.windows.length < 2
        · rw [if_pos hn2] at h
          rcases Option.some.inj h with rfl
          rfl
        · rw [if_neg hn2] at h
          have hq : pa.workspace.windows.length - 2 < pa.workspace.windows.length := by
            omega
          rcases hci : nodeRemoveAt pa.workspace.windows pa.workspace.iActive
              (pa.workspace.windows.length - 2) with _ | ci <;> rw [hci] at h <;> dsimp only at h
          · exact absurd h (by simp)
          · rcases Option.some.inj h with rfl
            refine rebuildPath_winMS_eq ht hs hw ?_
            rw [Workspace.winMS, Workspace.winMS]
            rw [nodeRemoveAt_fst hci]
            exact eraseIdx_append_winMS hq

end Gwm

namespace Gwm

lemma workspace_mk_winMS (l : List Nat) (ia : Int) (mf : ℚ) :
    (Workspace.mk l ia mf).winMS = (l : Multiset Nat) := rfl

lemma screen_mk_winMS (wss : List Workspace) (ia : Int) :
    (Screen.mk wss ia).winMS = (wss.map Workspace.winMS).sum := rfl

lemma coe_singleton_ms (a : Nat) : (([a] : List Nat) : Multiset Nat) = {a} := rfl

lemma moveWindowToWorkspace_winMS {r r' : Root} {i : Nat}
    (hmv : Tree.moveWindowToWorkspace r i = some r') : r'.winMS = r.winMS := by
  unfold Tree.moveWindowToWorkspace at hmv
  rcases hpa : r.resolveActivePath with _ | pa <;> rw [hpa] at hmv <;> dsimp only at hmv
  · exact absurd hmv (by simp)
  · rcases resolveActivePath_spec hpa with ⟨ht, hs, hw⟩
    by_cases hiw : i = pa.iW
    · rw [if_pos hiw] at hmv
      rcases Option.some.inj hmv with rfl
      rfl
    · rw [if_neg hiw] at hmv
      rcases hpw : pyIdx pa.workspace.windows.length pa.workspace.iActive with _ | pW <;>
        rw [hpw] at hmv <;> dsimp only at hmv
      · rcases Option.some.inj hmv with rfl
        rfl
      · rcases hci : nodeRemoveAt pa.workspace.windows pa.workspace.iActive pW
            with _ | ci <;> rw [hci] at hmv <;> dsimp only at hmv
        · exact absurd hmv (by simp)
        · rcases htgt : (pa.screen.workspaces.set pa.iW
              ⟨ci.1, ci.2, pa.workspace.masterFactor⟩)[i]? with _ | wTgt <;>
            rw [htgt] at hmv <;> dsimp only at hmv
          · exact absurd hmv (by simp)
          · rcases Option.some.inj hmv with rfl
            have hpwlt := pyIdx_lt hpw
            have hget0 : pa.workspace.windows[pW]?
                = some (pa.workspace.windows.getD pW 0) := by
              rw [List.getElem?_eq_getElem hpwlt]
              rw [List.getD_eq_getElem?_getD, List.getElem?_eq_getElem hpwlt]
              rfl
            have e0 : ((ci.1 : List Nat) : Multiset Nat)
                + {pa.workspace.windows.getD pW 0} = pa.workspace.winMS := by
              rw [nodeRemoveAt_fst hci]
              exact coe_eraseIdx_add hget0
            have e1 := sum_map_set Workspace.winMS pa.screen.workspaces pa.iW
              (Workspace.mk ci.1 ci.2 pa.workspace.masterFactor) pa.workspace hw
            have e2 := sum_map_set Workspace.winMS
              (pa.screen.workspaces.set pa.iW
                (Workspace.mk ci.1 ci.2 pa.workspace.masterFactor)) i
              (Workspace.mk (wTgt.windows ++ [pa.workspace.windows.getD pW 0])
                (((wTgt.windows ++ [pa.workspace.windows.getD pW 0]).length : Int) - 1)
                wTgt.masterFactor) wTgt htgt
            have ewt : (Workspace.mk (wTgt.windows ++ [pa.workspace.windows.getD pW 0])
                (((wTgt.windows ++ [pa.workspace.windows.getD pW 0]).length : Int) - 1)
                wTgt.masterFactor).winMS
                = wTgt.winMS + {pa.workspace.windows.getD pW 0} := by
              rw [workspace_mk_winMS, coe_append_ms, coe_singleton_ms]
              rfl
            have hb2 : (((pa.screen.workspaces.set pa.iW
                (Workspace.mk ci.1 ci.2 pa.workspace.masterFactor)).set i
                (Workspace.mk (wTgt.windows ++ [pa.workspace.windows.getD pW 0])
                  (((wTgt.windows ++ [pa.workspace.windows.getD pW 0]).length : Int) - 1)
                  wTgt.masterFactor)).map Workspace.winMS).sum
                = ((pa.screen.workspaces.set pa.iW
                    (Workspace.mk ci.1 ci.2 pa.workspace.masterFactor)).map
                      Workspace.winMS).sum
                  + {pa.workspace.windows.getD pW 0} := by
              have step : (((pa.screen.workspaces.set pa.iW
                  (Workspace.mk ci.1 ci.2 pa.workspace.masterFactor)).set i
                  (Workspace.mk (wTgt.windows ++ [pa.workspace.windows.getD pW 0])
                    (((wTgt.windows ++ [pa.workspace.windows.getD pW 0]).length : Int) - 1)
                    wTgt.masterFactor)).map Workspace.winMS).sum + wTgt.winMS
                  = (((pa.screen.workspaces.set pa.iW
                      (Workspace.mk ci.1 ci.2 pa.workspace.masterFactor)).map
                        Workspace.winMS).sum
                      + {pa.workspace.windows.getD pW 0}) + wTgt.winMS := by
                rw [e2, ewt]
                abel
              exact add_right_cancel step
            have hb1 : ((pa.screen.workspaces.set pa.iW
                (Workspace.mk ci.1 ci.2 pa.workspace.masterFactor)).map
                  Workspace.winMS).sum + {pa.workspace.windows.getD pW 0}
                = (pa.screen.workspaces.map Workspace.winMS).sum := by
              have hwmk : (Workspace.mk ci.1 ci.2 pa.workspace.masterFactor).winMS
                  = ((ci.1 : List Nat) : Multiset Nat) := rfl
              have step : (((pa.screen.workspaces.set pa.iW
                  (Workspace.mk ci.1 ci.2 pa.workspace.masterFactor)).map
                    Workspace.winMS).sum + {pa.workspace.windows.getD pW 0})
                  + ((ci.1 : List Nat) : Multiset Nat)
                  = (pa.screen.workspaces.map Workspace.winMS).sum
                    + ((ci.1 : List Nat) : Multiset Nat) := by
                calc (((pa.screen.workspaces.set pa.iW
                    (Workspace.mk ci.1 ci.2 pa.workspace.masterFactor)).map
                      Workspace.winMS).sum + {pa.workspace.windows.getD pW 0})
                    + ((ci.1 : List Nat) : Multiset Nat)
                    = ((pa.screen.workspaces.set pa.iW
                        (Workspace.mk ci.1 ci.2 pa.workspace.masterFactor)).map
                          Workspace.winMS).sum
                      + (((ci.1 : List Nat) : Multiset Nat)
                        + {pa.workspace.windows.getD pW 0}) := by abel
                  _ = ((pa.screen.workspaces.set pa.iW
                        (Workspace.mk ci.1 ci.2 pa.workspace.masterFactor)).map
                          Workspace.winMS).sum + pa.workspace.winMS := by rw [e0]
                  _ = (pa.screen.workspaces.map Workspace.winMS).sum
                      + (Workspace.mk ci.1 ci.2 pa.workspace.masterFactor).winMS := e1
                  _ = (pa.screen.workspaces.map Workspace.winMS).sum
                      + ((ci.1 : List Nat) : Multiset Nat) := by rw [hwmk]
              exact add_right_cancel step
            have hfin := winMS_replace_workspaces r pa.iT pa.iS pa.task pa.screen
              ((pa.screen.workspaces.set pa.iW
                (Workspace.mk ci.1 ci.2 pa.workspace.masterFactor)).set i
                (Workspace.mk (wTgt.windows ++ [pa.workspace.windows.getD pW 0])
                  (((wTgt.windows ++ [pa.workspace.windows.getD pW 0]).length : Int) - 1)
                  wTgt.masterFactor))
              pa.screen.iActive pa.task.iActive r.iActive ht hs
            have hscr : (Screen.mk ((pa.screen.workspaces.set pa.iW
                (Workspace.mk ci.1 ci.2 pa.workspace.masterFactor)).set i
                (Workspace.mk (wTgt.windows ++ [pa.workspace.windows.getD pW 0])
                  (((wTgt.windows ++ [pa.workspace.windows.getD pW 0]).length : Int) - 1)
                  wTgt.masterFactor)) pa.screen.iActive).winMS
                = pa.screen.winMS := by
              rw [screen_mk_winMS]
              exact hb2.trans hb1
            have hfin2 := hfin.trans (by rw [hscr])
            exact add_right_cancel hfin2

end Gwm

namespace Gwm

lemma sum_map_set_add {α : Type} {m : Multiset Nat} (f : α → Multiset Nat)
    (l : List α) (i : Nat) (x a : α) (ha : l[i]? = some a)
    (hx : f x = f a + m) : ((l.set i x).map f).sum = (l.map f).sum + m := by
  have h := sum_map_set f l i x a ha
  rw [hx] at h
  have key : ((l.set i x).map f).sum + f a = ((l.map f).sum + m) + f a := by
    rw [h]
    abel
  exact add_right_cancel key

lemma sum_map_set_sub {α : Type} {m : Multiset Nat} (f : α → Multiset Nat)
    (l : List α) (i : Nat) (x a : α) (ha : l[i]? = some a)
    (hx : f x + m = f a) : ((l.set i x).map f).sum + m = (l.map f).sum := by
  have h := sum_map_set f l i x a ha
  rw [← hx] at h
  have key : (((l.set i x).map f).sum + m) + f x = (l.map f).sum + f x := by
    calc (((l.set i x).map f).sum + m) + f x
        = ((l.set i x).map f).sum + (f x + m) := by abel
      _ = (l.map f).sum + f x := h
  exact add_right_cancel key

lemma moveWindowToScreen_winMS {r r' : Root} {off : Int}
    (hmv : Tree.moveWindowToScreen r off = some r') : r'.winMS = r.winMS := by
  unfold Tree.moveWindowToScreen at hmv
  rcases Option.bind_eq_some.1 hmv with ⟨iT, hiT, hmv⟩
  rcases Option.bind_eq_some.1 hmv with ⟨t, ht, hmv⟩
  rcases Option.bind_eq_some.1 hmv with ⟨iS, hiS, hmv⟩
  rcases Option.bind_eq_some.1 hmv with ⟨s, hs, hmv⟩
  dsimp only at hmv
  split at hmv
  · rcases Option.some.inj hmv with rfl
    rfl
  · rcases hiww : pyIdx s.workspaces.length s.iActive with _ | iW <;>
      rw [hiww] at hmv <;> dsimp only at hmv
    · rcases Option.some.inj hmv with rfl
      rfl
    · rcases Option.bind_eq_some.1 hmv with ⟨w, hw, hmv⟩
      rcases hpw : pyIdx w.windows.length w.iActive with _ | pW <;>
        rw [hpw] at hmv <;> dsimp only at hmv
      · rcases Option.some.inj hmv with rfl
        rfl
      · rcases Option.bind_eq_some.1 hmv with ⟨ci, hci, hmv⟩
        rcases Option.bind_eq_some.1 hmv with ⟨sNew, hsnew, hmv⟩
        rcases Option.bind_eq_some.1 hmv with ⟨iWn, hiwn, hmv⟩
        rcases Option.bind_eq_some.1 hmv with ⟨wn, hwn, hmv⟩
        rcases Option.some.inj hmv with rfl
        have hpwlt := pyIdx_lt hpw
        have hget0 : w.windows[pW]? = some (w.windows.getD pW 0) := by
          rw [List.getElem?_eq_getElem hpwlt]
          rw [List.getD_eq_getElem?_getD, List.getElem?_eq_getElem hpwlt]
          rfl
        have e0 : ((ci.1 : List Nat) : Multiset Nat) + {w.windows.getD pW 0}
            = w.winMS := by
          rw [nodeRemoveAt_fst hci]
          exact coe_eraseIdx_add hget0
        -- the source screen loses {h0}
        have hs' : ((s.workspaces.set iW
            (Workspace.mk ci.1 ci.2 w.masterFactor)).map Workspace.winMS).sum
            + {w.windows.getD pW 0} = (s.workspaces.map Workspace.winMS).sum :=
          sum_map_set_sub Workspace.winMS s.workspaces iW _ w hw e0
        -- the target screen gains {h0}
        have hsN : ((sNew.workspaces.set iWn
            (Workspace.mk (wn.windows ++ [w.windows.getD pW 0])
              (((wn.windows ++ [w.windows.getD pW 0]).length : Int) - 1)
              wn.masterFactor)).map Workspace.winMS).sum
            = (sNew.workspaces.map Workspace.winMS).sum + {w.windows.getD pW 0} :=
          sum_map_set_add Workspace.winMS sNew.workspaces iWn _ wn hwn (by
            rw [workspace_mk_winMS, coe_append_ms, coe_singleton_ms]
            rfl)
        -- screens of the task: first the source replacement, then the target
        have c1 : ((t.screens.set iS
            (Screen.mk (s.workspaces.set iW (Workspace.mk ci.1 ci.2 w.masterFactor))
              s.iActive)).map Screen.winMS).sum + {w.windows.getD pW 0}
            = (t.screens.map Screen.winMS).sum :=
          sum_map_set_sub Screen.winMS t.screens iS _ s hs (by
            rw [screen_mk_winMS]
            exact hs')
        have c2 : (((t.screens.set iS
            (Screen.mk (s.workspaces.set iW (Workspace.mk ci.1 ci.2 w.masterFactor))
              s.iActive)).set
              (((iS : Int) + off).emod (t.screens.length : Int)).toNat
              (Screen.mk (sNew.workspaces.set iWn
                (Workspace.mk (wn.windows ++ [w.windows.getD pW 0])
                  (((wn.windows ++ [w.windows.getD pW 0]).length : Int) - 1)
                  wn.masterFactor)) sNew.iActive)).map Screen.winMS).sum
            = ((t.screens.set iS
                (Screen.mk (s.workspaces.set iW (Workspace.mk ci.1 ci.2 w.masterFactor))
                  s.iActive)).map Screen.winMS).sum + {w.windows.getD pW 0} :=
          sum_map_set_add Screen.winMS _ _ _ sNew hsnew (by
            rw [screen_mk_winMS]
            exact hsN)
        refine winMS_set_task ht ?_ _
        show (((t.screens.set iS
            (Screen.mk (s.workspaces.set iW (Workspace.mk ci.1 ci.2 w.masterFactor))
              s.iActive)).set
              (((iS : Int) + off).emod (t.screens.length : Int)).toNat
              (Screen.mk (sNew.workspaces.set iWn
                (Workspace.mk (wn.windows ++ [w.windows.getD pW 0])
                  (((wn.windows ++ [w.windows.getD pW 0]).length : Int) - 1)
                  wn.masterFactor)) sNew.iActive)).map Screen.winMS).sum
          = (t.screens.map Screen.winMS).sum
        rw [c2]
        exact c1

end Gwm

namespace Gwm

lemma handleWindow_winMS {v : Bool} {r r' : Root} {hnd : Nat}
    (h : Tree.handleWindow v r hnd = some r') :
    r' = r ∨ (hnd ∉ r.allWindows ∧ r'.winMS = r.winMS + {hnd}) := by
  unfold Tree.handleWindow at h
  by_cases hv : v = false
  · rw [if_pos hv] at h
    exact Or.inl (Option.some.inj h).symm
  · rw [if_neg hv] at h
    by_cases hmem : hnd ∈ r.allWindows
    · rw [if_pos hmem] at h
      exact Or.inl (Option.some.inj h).symm
    · rw [if_neg hmem] at h
      rcases hpa : r.resolveActivePath with _ | pa <;> rw [hpa] at h <;> dsimp only at h
      · exact absurd h (by simp)
      · rcases resolveActivePath_spec hpa with ⟨ht, hs, hw⟩
        rcases Option.some.inj h with rfl
        refine Or.inr ⟨hmem, ?_⟩
        have hrb := winMS_rebuildPath r pa
          (Workspace.mk (pa.workspace.windows ++ [hnd])
            (((pa.workspace.windows ++ [hnd]).length : Int) - 1)
            pa.workspace.masterFactor)
          (pa.iW : Int) (pa.iS : Int) (pa.iT : Int) ht hs hw
        have hw' : (Workspace.mk (pa.workspace.windows ++ [hnd])
            (((pa.workspace.windows ++ [hnd]).length : Int) - 1)
            pa.workspace.masterFactor).winMS
            = pa.workspace.winMS + {hnd} := by
          rw [workspace_mk_winMS, coe_append_ms, coe_singleton_ms]
          rfl
        rw [hw'] at hrb
        have key : (r.rebuildPath pa
            (Workspace.mk (pa.workspace.windows ++ [hnd])
              (((pa.workspace.windows ++ [hnd]).length : Int) - 1)
              pa.workspace.masterFactor)
            (pa.iW : Int) (pa.iS : Int) (pa.iT : Int)).winMS + pa.workspace.winMS
            = (r.winMS + {hnd}) + pa.workspace.winMS := by
          rw [hrb]
          abel
        exact add_right_cancel key

lemma optMap_sum_le {α : Type} (f : α → Multiset Nat) (g : α → Option α)
    (hg : ∀ x y, g x = some y → f y ≤ f x) :
    ∀ {l l' : List α}, optMap g l = some l' → (l'.map f).sum ≤ (l.map f).sum := by
  intro l
  induction l with
  | nil =>
      intro l' h
      rw [optMap] at h
      rcases Option.some.inj h with rfl
      exact le_refl _
  | cons a l ih =>
      intro l' h
      rw [optMap] at h
      rcases hga : g a with _ | b <;> rw [hga] at h <;> (try dsimp only at h)
      · exact absurd h (by simp)
      · rcases hrec : optMap g l with _ | bs <;> rw [hrec] at h <;> (try dsimp only at h)
        · exact absurd h (by simp)
        · rcases Option.some.inj h with rfl
          simp only [List.map_cons, List.sum_cons]
          exact add_le_add (hg a b hga) (ih hrec)

lemma removeWindowHandle_le {w w' : Workspace} {hnd : Nat}
    (hr : w.removeWindowHandle hnd = some w') : w'.winMS ≤ w.winMS := by
  unfold Workspace.removeWindowHandle at hr
  split at hr
  · rcases Option.map_eq_some'.1 hr with ⟨ci, hci, hv⟩
    rw [← hv]
    show ((ci.1 : List Nat) : Multiset Nat) ≤ (w.windows : Multiset Nat)
    rw [nodeRemoveAt_fst hci]
    exact Multiset.coe_le.2 (List.Sublist.subperm (List.eraseIdx_sublist _ _))
  · rcases Option.some.inj hr with rfl
    exact le_refl _

lemma unhandleWindow_winMS {r r' : Root} {hnd : Nat}
    (h : Tree.unhandleWindow r hnd = some r') : r'.winMS ≤ r.winMS := by
  unfold Tree.unhandleWindow at h
  rcases Option.bind_eq_some.1 h with ⟨tasks', htasks, h⟩
  rcases Option.some.inj h with rfl
  show ((tasks'.map Task.winMS).sum) ≤ (r.tasks.map Task.winMS).sum
  refine optMap_sum_le Task.winMS _ ?_ htasks
  intro t t' hT
  rcases Option.bind_eq_some.1 hT with ⟨screens', hscreens, hT⟩
  rcases Option.some.inj hT with rfl
  show ((screens'.map Screen.winMS).sum) ≤ (t.screens.map Screen.winMS).sum
  refine optMap_sum_le Screen.winMS _ ?_ hscreens
  intro s s' hS
  rcases Option.bind_eq_some.1 hS with ⟨wss', hwss, hS⟩
  rcases Option.some.inj hS with rfl
  show ((wss'.map Workspace.winMS).sum) ≤ (s.workspaces.map Workspace.winMS).sum
  refine optMap_sum_le Workspace.winMS _ ?_ hwss
  intro w w' hW
  exact removeWindowHandle_le hW

end Gwm

namespace Gwm

lemma sum_eraseIdx_append {l : List Task} {j : Nat} {a : Task} (hj : l[j]? = some a) :
    (((l.eraseIdx j) ++ [a]).map Task.winMS).sum = (l.map Task.winMS).sum := by
  rw [List.map_append, List.sum_append]
  simpa using sum_map_eraseIdx Task.winMS l j a hj

/-- `switchTaskGo` never changes the multiset of tracked window handles:
the created task is empty, a removed previous task is empty by the guard,
and the promote of the target task is a detach-and-re-append. -/
lemma switchTaskGo_winMS {sc : Nat} {r : Root} {name : String}
    {prev : Option (Nat × Task)} {r' : Root} {b : Bool}
    (hprev : ∀ iP tp, prev = some (iP, tp) →
      iP < r.tasks.length ∧ r.tasks[iP]? = some tp ∧ tp.name ≠ name)
    (hrun : Tree.switchTaskGo sc r name prev = some (r', b)) :
    r'.winMS = r.winMS := by
  have hnewz : (createTask sc name).winMS = 0 := createTask_winMS sc name
  have hnewget : (r.tasks ++ [createTask sc name])[r.tasks.length]?
      = some (createTask sc name) :=
    List.getElem?_concat_length r.tasks (createTask sc name)
  have hgdnew : (r.tasks ++ [createTask sc name]).getD r.tasks.length
      (createTask sc name) = createTask sc name :=
    getD_of_getElem? _ hnewget
  have hsum1 : ((r.tasks ++ [createTask sc name]).map Task.winMS).sum
      = (r.tasks.map Task.winMS).sum := by
    rw [List.map_append, List.sum_append]
    simp [hnewz]
  rcases hfd : findLastIdx (fun tk => tk.name == name) r.tasks with _ | j
  all_goals rcases prev with _ | ⟨iP, tp⟩ <;>
    simp only [Tree.switchTaskGo, hfd] at hrun
  -- found = none, prev = none
  · rcases hci : nodeRemoveAt (r.tasks ++ [createTask sc name]) r.iActive
        r.tasks.length with _ | ci <;> rw [hci] at hrun <;> dsimp only at hrun
    · exact absurd hrun (by simp)
    · rcases Option.some.inj hrun with ⟨rfl, -⟩
      show ((ci.1 ++ [(r.tasks ++ [createTask sc name]).getD r.tasks.length
          (createTask sc name)]).map Task.winMS).sum = (r.tasks.map Task.winMS).sum
      rw [hgdnew, nodeRemoveAt_fst hci, sum_eraseIdx_append hnewget, hsum1]
  -- found = none, prev = some (iP, tp)
  · obtain ⟨hiplt, hip, hipname⟩ := hprev iP tp rfl
    by_cases he : tp.allWindows = []
    · rw [if_pos he] at hrun
      rcases hci1 : nodeRemoveAt (r.tasks ++ [createTask sc name]) r.iActive iP
          with _ | ci1 <;> rw [hci1] at hrun <;>
          simp only [Option.map_none', Option.map_some'] at hrun
      · exact absurd hrun (by simp)
      · rw [if_pos hiplt] at hrun
        have hip1 : (r.tasks ++ [createTask sc name])[iP]? = some tp := by
          rw [List.getElem?_append_left hiplt]
          exact hip
        have hsum2 : (ci1.1.map Task.winMS).sum = (r.tasks.map Task.winMS).sum := by
          have h2 := sum_map_eraseIdx Task.winMS (r.tasks ++ [createTask sc name])
            iP tp hip1
          rw [taskWinMS_zero_of_allWindows_nil he, add_zero, hsum1] at h2
          rw [nodeRemoveAt_fst hci1]
          exact h2
        have hpos : ci1.1[r.tasks.length - 1]? = some (createTask sc name) := by
          rw [nodeRemoveAt_fst hci1, getElem?_eraseIdx_of_le (by omega)]
          rw [show r.tasks.length - 1 + 1 = r.tasks.length by omega]
          exact hnewget
        rcases hci : nodeRemoveAt ci1.1 ci1.2 (r.tasks.length - 1)
            with _ | ci <;> rw [hci] at hrun <;> dsimp only at hrun
        · exact absurd hrun (by simp)
        · rcases Option.some.inj hrun with ⟨rfl, -⟩
          show ((ci.1 ++ [(r.tasks ++ [createTask sc name]).getD r.tasks.length
              (createTask sc name)]).map Task.winMS).sum = (r.tasks.map Task.winMS).sum
          rw [hgdnew, nodeRemoveAt_fst hci, sum_eraseIdx_append hpos, hsum2]
    · rw [if_neg he] at hrun
      dsimp only at hrun
      rcases hci : nodeRemoveAt (r.tasks ++ [createTask sc name]) r.iActive
          r.tasks.length with _ | ci <;> rw [hci] at hrun <;> dsimp only at hrun
      · exact absurd hrun (by simp)
      · rcases Option.some.inj hrun with ⟨rfl, -⟩
        show ((ci.1 ++ [(r.tasks ++ [createTask sc name]).getD r.tasks.length
            (createTask sc name)]).map Task.winMS).sum = (r.tasks.map Task.winMS).sum
        rw [hgdnew, nodeRemoveAt_fst hci, sum_eraseIdx_append hnewget, hsum1]
  -- found = some j, prev = none
  · obtain ⟨aF, hjF, hpF⟩ := findLastIdx_spec hfd
    have hgd : r.tasks.getD j (createTask sc name) = aF := getD_of_getElem? _ hjF
    rcases hci : nodeRemoveAt r.tasks r.iActive j with _ | ci <;>
      rw [hci] at hrun <;> dsimp only at hrun
    · exact absurd hrun (by simp)
    · rcases Option.some.inj hrun with ⟨rfl, -⟩
      show ((ci.1 ++ [r.tasks.getD j (createTask sc name)]).map Task.winMS).sum
        = (r.tasks.map Task.winMS).sum
      rw [hgd, nodeRemoveAt_fst hci, sum_eraseIdx_append hjF]
  -- found = some j, prev = some (iP, tp)
  · obtain ⟨aF, hjF, hpF⟩ := findLastIdx_spec hfd
    have hgd : r.tasks.getD j (createTask sc name) = aF := getD_of_getElem? _ hjF
    obtain ⟨hiplt, hip, hipname⟩ := hprev iP tp rfl
    have hiPj : iP ≠ j := by
      intro hh
      subst hh
      rw [hip] at hjF
      rcases Option.some.inj hjF with rfl
      exact hipname (eq_of_beq hpF)
    by_cases he : tp.allWindows = []
    · rw [if_pos he] at hrun
      rcases hci1 : nodeRemoveAt r.tasks r.iActive iP
          with _ | ci1 <;> rw [hci1] at hrun <;>
          simp only [Option.map_none', Option.map_some'] at hrun
      · exact absurd hrun (by simp)
      · have hsum2 : (ci1.1.map Task.winMS).sum = (r.tasks.map Task.winMS).sum := by
          have h2 := sum_map_eraseIdx Task.winMS r.tasks iP tp hip
          rw [taskWinMS_zero_of_allWindows_nil he, add_zero] at h2
          rw [nodeRemoveAt_fst hci1]
          exact h2
        have hpos : ci1.1[if iP < j then j - 1 else j]? = some aF := by
          rw [nodeRemoveAt_fst hci1]
          by_cases hij : iP < j
          · rw [if_pos hij, getElem?_eraseIdx_of_le (by omega)]
            rw [show j - 1 + 1 = j by omega]
            exact hjF
          · rw [if_neg hij, getElem?_eraseIdx_of_lt (by omega)]
            exact hjF
        rcases hci : nodeRemoveAt ci1.1 ci1.2 (if iP < j then j - 1 else j)
            with _ | ci <;> rw [hci] at hrun <;> dsimp only at hrun
        · exact absurd hrun (by simp)
        · rcases Option.some.inj hrun with ⟨rfl, -⟩
          show ((ci.1 ++ [r.tasks.getD j (createTask sc name)]).map Task.winMS).sum
            = (r.tasks.map Task.winMS).sum
          rw [hgd, nodeRemoveAt_fst hci, sum_eraseIdx_append hpos, hsum2]
    · rw [if_neg he] at hrun
      dsimp only at hrun
      rcases hci : nodeRemoveAt r.tasks r.iActive j with _ | ci <;>
        rw [hci] at hrun <;> dsimp only at hrun
      · exact absurd hrun (by simp)
      · rcases Option.some.inj hrun with ⟨rfl, -⟩
        show ((ci.1 ++ [r.tasks.getD j (createTask sc name)]).map Task.winMS).sum
          = (r.tasks.map Task.winMS).sum
        rw [hgd, nodeRemoveAt_fst hci, sum_eraseIdx_append hjF]

end Gwm

namespace Gwm

lemma switchTask_winMS {sc : Nat} {r : Root} {name : String} {r' : Root} {b : Bool}
    (h : Tree.switchTask sc r name = some (r', b)) : r'.winMS = r.winMS := by
  unfold Tree.switchTask at h
  rcases h1 : pyIdx r.tasks.length r.iActive with _ | iP <;>
    rcases h2 : pyGet r.tasks r.iActive with _ | tp <;>
    rw [h1, h2] at h <;> dsimp only at h
  · exact switchTaskGo_winMS (fun _ _ hx => Option.noConfusion hx) h
  · exact switchTaskGo_winMS (fun _ _ hx => Option.noConfusion hx) h
  · exact switchTaskGo_winMS (fun _ _ hx => Option.noConfusion hx) h
  · by_cases hn : tp.name = name
    · rw [if_pos hn] at h
      rcases Option.some.inj h with ⟨rfl, -⟩
      rfl
    · rw [if_neg hn] at h
      refine switchTaskGo_winMS ?_ h
      rintro iP' tp' heq
      injection Option.some.inj heq with hA hB
      subst hA
      subst hB
      refine ⟨pyIdx_lt h1, ?_, hn⟩
      rcases pyGet_eq_some h2 with ⟨j2, hj2, hget2⟩
      have hji := Option.some.inj (hj2.symm.trans h1)
      rw [← hji]
      exact hget2

lemma windowPath_spec {t : Task} {iS : Nat} {s : Screen} {iW : Nat}
    {w : Workspace} {pW : Nat}
    (h : t.windowPath = some (iS, s, iW, w, pW)) :
    t.screens[iS]? = some s ∧ s.workspaces[iW]? = some w ∧ pW < w.windows.length := by
  unfold Task.windowPath at h
  rcases Option.bind_eq_some.1 h with ⟨iS0, hiS0, h⟩
  rcases Option.bind_eq_some.1 h with ⟨s0, hs0, h⟩
  rcases Option.bind_eq_some.1 h with ⟨iW0, hiW0, h⟩
  rcases Option.bind_eq_some.1 h with ⟨w0, hw0, h⟩
  rcases Option.bind_eq_some.1 h with ⟨pW0, hpW0, h⟩
  injection Option.some.inj h with hA h
  injection h with hB h
  injection h with hC h
  injection h with hD hE
  subst hA
  subst hB
  subst hC
  subst hD
  subst hE
  exact ⟨hs0, hw0, pyIdx_lt hpW0⟩

lemma workspacePath_spec {t : Task} {iSn : Nat} {sn : Screen} {iWn : Nat}
    {wn : Workspace}
    (h : t.workspacePath = some (iSn, sn, iWn, wn)) :
    t.screens[iSn]? = some sn ∧ sn.workspaces[iWn]? = some wn := by
  unfold Task.workspacePath at h
  rcases Option.bind_eq_some.1 h with ⟨iS0, hiS0, h⟩
  rcases Option.bind_eq_some.1 h with ⟨s0, hs0, h⟩
  rcases Option.bind_eq_some.1 h with ⟨iW0, hiW0, h⟩
  rcases Option.bind_eq_some.1 h with ⟨w0, hw0, h⟩
  injection Option.some.inj h with hA h
  injection h with hB h
  injection h with hC hD
  subst hA
  subst hB
  subst hC
  subst hD
  exact ⟨hs0, hw0⟩

end Gwm

namespace Gwm

lemma moveWindowToTask_winMS {sc : Nat} {r : Root} {name : String} {r' : Root} {b : Bool}
    (hmv : Tree.moveWindowToTask sc r name = some (r', b)) : r'.winMS = r.winMS := by
  unfold Tree.moveWindowToTask at hmv
  rcases h1 : pyIdx r.tasks.length r.iActive with _ | iT <;>
    rcases h2 : pyGet r.tasks r.iActive with _ | t <;>
    rw [h1, h2] at hmv <;> dsimp only at hmv
  · exact absurd hmv (by simp)
  · exact absurd hmv (by simp)
  · exact absurd hmv (by simp)
  · have hiTlt : iT < r.tasks.length := pyIdx_lt h1
    have htval : r.tasks[iT]? = some t := by
      rcases pyGet_eq_some h2 with ⟨j2, hj2, hget2⟩
      have hji := Option.some.inj (hj2.symm.trans h1)
      rw [← hji]
      exact hget2
    by_cases hn : t.name = name
    · rw [if_pos hn] at hmv
      rcases Option.some.inj hmv with ⟨rfl, -⟩
      rfl
    · rw [if_neg hn] at hmv
      rcases hwp : t.windowPath with _ | q <;> rw [hwp] at hmv <;> dsimp only at hmv
      · rcases Option.some.inj hmv with ⟨rfl, -⟩
        rfl
      · obtain ⟨iS, s, iW, w, pW⟩ := q
        dsimp only at hmv
        obtain ⟨hs, hw, hpWlt⟩ := windowPath_spec hwp
        rcases hci : nodeRemoveAt w.windows w.iActive pW with _ | ci <;>
          rw [hci] at hmv <;> dsimp only at hmv
        · exact absurd hmv (by simp)
        · have hget0 : w.windows[pW]? = some (w.windows.getD pW 0) := by
            rw [List.getElem?_eq_getElem hpWlt]
            rw [List.getD_eq_getElem?_getD, List.getElem?_eq_getElem hpWlt]
            rfl
          have e0 : ((ci.1 : List Nat) : Multiset Nat) + {w.windows.getD pW 0}
              = w.winMS := by
            rw [nodeRemoveAt_fst hci]
            exact coe_eraseIdx_add hget0
          have ht1 : Task.winMS (Task.mk t.name
              (t.screens.set iS (Screen.mk
                (s.workspaces.set iW (Workspace.mk ci.1 ci.2 w.masterFactor))
                s.iActive)) t.iActive) + {w.windows.getD pW 0} = Task.winMS t := by
            refine sum_map_set_sub Screen.winMS t.screens iS _ s hs ?_
            refine sum_map_set_sub Workspace.winMS s.workspaces iW _ w hw ?_
            exact e0
          have hsumA : ((r.tasks.set iT (Task.mk t.name
              (t.screens.set iS (Screen.mk
                (s.workspaces.set iW (Workspace.mk ci.1 ci.2 w.masterFactor))
                s.iActive)) t.iActive)).map Task.winMS).sum
              + {w.windows.getD pW 0} = (r.tasks.map Task.winMS).sum :=
            sum_map_set_sub Task.winMS r.tasks iT _ t htval ht1
          have hlenA : (r.tasks.set iT (Task.mk t.name
              (t.screens.set iS (Screen.mk
                (s.workspaces.set iW (Workspace.mk ci.1 ci.2 w.masterFactor))
                s.iActive)) t.iActive)).length = r.tasks.length :=
            List.length_set r.tasks iT _
          have hAiT : (r.tasks.set iT (Task.mk t.name
              (t.screens.set iS (Screen.mk
                (s.workspaces.set iW (Workspace.mk ci.1 ci.2 w.masterFactor))
                s.iActive)) t.iActive))[iT]? = some (Task.mk t.name
              (t.screens.set iS (Screen.mk
                (s.workspaces.set iW (Workspace.mk ci.1 ci.2 w.masterFactor))
                s.iActive)) t.iActive) :=
            List.getElem?_set_self hiTlt
          rcases hfd : findLastIdx (fun tk => tk.name == name)
              (r.tasks.set iT (Task.mk t.name
                (t.screens.set iS (Screen.mk
                  (s.workspaces.set iW (Workspace.mk ci.1 ci.2 w.masterFactor))
                  s.iActive)) t.iActive)) with _ | j <;>
            rw [hfd] at hmv <;> dsimp only at hmv
          · -- no task with the requested name: a fresh one is created
            rw [getD_of_getElem? (createTask sc name)
              (List.getElem?_concat_length _ (createTask sc name))] at hmv
            rcases hwp2 : (createTask sc name).workspacePath with _ | q2 <;>
              rw [hwp2] at hmv <;> dsimp only at hmv
            · exact absurd hmv (by simp)
            · obtain ⟨iSn, sn, iWn, wn⟩ := q2
              dsimp only at hmv
              obtain ⟨hsn, hwn⟩ := workspacePath_spec hwp2
              have hxnew : Task.winMS (Task.mk (createTask sc name).name
                  ((createTask sc name).screens.set iSn (Screen.mk
                    (sn.workspaces.set iWn (Workspace.mk
                      (wn.windows ++ [w.windows.getD pW 0])
                      (((wn.windows ++ [w.windows.getD pW 0]).length : Int) - 1)
                      wn.masterFactor)) sn.iActive)) (createTask sc name).iActive)
                  = Task.winMS (createTask sc name) + {w.windows.getD pW 0} := by
                refine sum_map_set_add Screen.winMS (createTask sc name).screens iSn
                  _ sn hsn ?_
                refine sum_map_set_add Workspace.winMS sn.workspaces iWn _ wn hwn ?_
                rw [workspace_mk_winMS, coe_append_ms, coe_singleton_ms]
                rfl
              have hjB : ((r.tasks.set iT (Task.mk t.name
                  (t.screens.set iS (Screen.mk
                    (s.workspaces.set iW (Workspace.mk ci.1 ci.2 w.masterFactor))
                    s.iActive)) t.iActive)) ++ [createTask sc name])[(r.tasks.set iT
                    (Task.mk t.name (t.screens.set iS (Screen.mk
                      (s.workspaces.set iW (Workspace.mk ci.1 ci.2 w.masterFactor))
                      s.iActive)) t.iActive)).length]? = some (createTask sc name) :=
                List.getElem?_concat_length _ _
              have hsumC := sum_map_set_add Task.winMS
                ((r.tasks.set iT (Task.mk t.name
                  (t.screens.set iS (Screen.mk
                    (s.workspaces.set iW (Workspace.mk ci.1 ci.2 w.masterFactor))
                    s.iActive)) t.iActive)) ++ [createTask sc name])
                (r.tasks.set iT (Task.mk t.name
                  (t.screens.set iS (Screen.mk
                    (s.workspaces.set iW (Workspace.mk ci.1 ci.2 w.masterFactor))
                    s.iActive)) t.iActive)).length
                _ (createTask sc name) hjB hxnew
              have hiTj : iT ≠ (r.tasks.set iT (Task.mk t.name
                  (t.screens.set iS (Screen.mk
                    (s.workspaces.set iW (Workspace.mk ci.1 ci.2 w.masterFactor))
                    s.iActive)) t.iActive)).length := by
                rw [hlenA]
                omega
              have hCiT : (((r.tasks.set iT (Task.mk t.name
                  (t.screens.set iS (Screen.mk
                    (s.workspaces.set iW (Workspace.mk ci.1 ci.2 w.masterFactor))
                    s.iActive)) t.iActive)) ++ [createTask sc name]).set
                  (r.tasks.set iT (Task.mk t.name
                    (t.screens.set iS (Screen.mk
                      (s.workspaces.set iW (Workspace.mk ci.1 ci.2 w.masterFactor))
                      s.iActive)) t.iActive)).length
                  (Task.mk (createTask sc name).name
                    ((createTask sc name).screens.set iSn (Screen.mk
                      (sn.workspaces.set iWn (Workspace.mk
                        (wn.windows ++ [w.windows.getD pW 0])
                        (((wn.windows ++ [w.windows.getD pW 0]).length : Int) - 1)
                        wn.masterFactor)) sn.iActive))
                    (createTask sc name).iActive))[iT]?
                  = some (Task.mk t.name
                    (t.screens.set iS (Screen.mk
                      (s.workspaces.set iW (Workspace.mk ci.1 ci.2 w.masterFactor))
                      s.iActive)) t.iActive) := by
                rw [List.getElem?_set_ne (fun hh => hiTj hh.symm)]
                rw [List.getElem?_append_left (by rw [hlenA]; exact hiTlt)]
                exact hAiT
              rcases hci2 : nodeRemoveAt (((r.tasks.set iT (Task.mk t.name
                  (t.screens.set iS (Screen.mk
                    (s.workspaces.set iW (Workspace.mk ci.1 ci.2 w.masterFactor))
                    s.iActive)) t.iActive)) ++ [createTask sc name]).set
                  (r.tasks.set iT (Task.mk t.name
                    (t.screens.set iS (Screen.mk
                      (s.workspaces.set iW (Workspace.mk ci.1 ci.2 w.masterFactor))
                      s.iActive)) t.iActive)).length
                  (Task.mk (createTask sc name).name
                    ((createTask sc name).screens.set iSn (Screen.mk
                      (sn.workspaces.set iWn (Workspace.mk
                        (wn.windows ++ [w.windows.getD pW 0])
                        (((wn.windows ++ [w.windows.getD pW 0]).length : Int) - 1)
                        wn.masterFactor)) sn.iActive))
                    (createTask sc name).iActive))
                  r.iActive iT with _ | ci2 <;> rw [hci2] at hmv <;> dsimp only at hmv
              · exact absurd hmv (by simp)
              · rcases Option.some.inj hmv with ⟨rfl, -⟩
                show ((ci2.1 ++ [Task.mk t.name
                    (t.screens.set iS (Screen.mk
                      (s.workspaces.set iW (Workspace.mk ci.1 ci.2 w.masterFactor))
                      s.iActive)) t.iActive]).map Task.winMS).sum
                  = (r.tasks.map Task.winMS).sum
                rw [nodeRemoveAt_fst hci2, sum_eraseIdx_append hCiT, hsumC]
                rw [List.map_append, List.sum_append]
                have hz : ((List.map Task.winMS [createTask sc name]).sum : Multiset Nat)
                    = 0 := by
                  simp [createTask_winMS]
                rw [hz, add_zero]
                exact hsumA
          · -- an existing task carries the requested name
            obtain ⟨aF, hjA, hpF⟩ := findLastIdx_spec hfd
            rw [getD_of_getElem? (createTask sc name) hjA] at hmv
            rcases hwp2 : aF.workspacePath with _ | q2 <;>
              rw [hwp2] at hmv <;> dsimp only at hmv
            · exact absurd hmv (by simp)
            · obtain ⟨iSn, sn, iWn, wn⟩ := q2
              dsimp only at hmv
              obtain ⟨hsn, hwn⟩ := workspacePath_spec hwp2
              have hxF : Task.winMS (Task.mk aF.name
                  (aF.screens.set iSn (Screen.mk
                    (sn.workspaces.set iWn (Workspace.mk
                      (wn.windows ++ [w.windows.getD pW 0])
                      (((wn.windows ++ [w.windows.getD pW 0]).length : Int) - 1)
                      wn.masterFactor)) sn.iActive)) aF.iActive)
                  = Task.winMS aF + {w.windows.getD pW 0} := by
                refine sum_map_set_add Screen.winMS aF.screens iSn _ sn hsn ?_
                refine sum_map_set_add Workspace.winMS sn.workspaces iWn _ wn hwn ?_
                rw [workspace_mk_winMS, coe_append_ms, coe_singleton_ms]
                rfl
              have hsumC := sum_map_set_add Task.winMS
                (r.tasks.set iT (Task.mk t.name
                  (t.screens.set iS (Screen.mk
                    (s.workspaces.set iW (Workspace.mk ci.1 ci.2 w.masterFactor))
                    s.iActive)) t.iActive)) j _ aF hjA hxF
              have hiTj : iT ≠ j := by
                intro hh
                subst hh
                rw [hAiT] at hjA
                rcases Option.some.inj hjA with haf
                have : t.name = name := by
                  have := eq_of_beq hpF
                  rw [← haf] at this
                  exact this
                exact hn this
              have hCiT : ((r.tasks.set iT (Task.mk t.name
                  (t.screens.set iS (Screen.mk
                    (s.workspaces.set iW (Workspace.mk ci.1 ci.2 w.masterFactor))
                    s.iActive)) t.iActive)).set j
                  (Task.mk aF.name
                    (aF.screens.set iSn (Screen.mk
                      (sn.workspaces.set iWn (Workspace.mk
                        (wn.windows ++ [w.windows.getD pW 0])
                        (((wn.windows ++ [w.windows.getD pW 0]).length : Int) - 1)
                        wn.masterFactor)) sn.iActive)) aF.iActive))[iT]?
                  = some (Task.mk t.name
                    (t.screens.set iS (Screen.mk
                      (s.workspaces.set iW (Workspace.mk ci.1 ci.2 w.masterFactor))
                      s.iActive)) t.iActive) := by
                rw [List.getElem?_set_ne (fun hh => hiTj hh.symm)]
                exact hAiT
              rcases hci2 : nodeRemoveAt ((r.tasks.set iT (Task.mk t.name
                  (t.screens.set iS (Screen.mk
                    (s.workspaces.set iW (Workspace.mk ci.1 ci.2 w.masterFactor))
                    s.iActive)) t.iActive)).set j
                  (Task.mk aF.name
                    (aF.screens.set iSn (Screen.mk
                      (sn.workspaces.set iWn (Workspace.mk
                        (wn.windows ++ [w.windows.getD pW 0])
                        (((wn.windows ++ [w.windows.getD pW 0]).length : Int) - 1)
                        wn.masterFactor)) sn.iActive)) aF.iActive))
                  r.iActive iT with _ | ci2 <;> rw [hci2] at hmv <;> dsimp only at hmv
              · exact absurd hmv (by simp)
              · rcases Option.some.inj hmv with ⟨rfl, -⟩
                show ((ci2.1 ++ [Task.mk t.name
                    (t.screens.set iS (Screen.mk
                      (s.workspaces.set iW (Workspace.mk ci.1 ci.2 w.masterFactor))
                      s.iActive)) t.iActive]).map Task.winMS).sum
                  = (r.tasks.map Task.winMS).sum
                rw [nodeRemoveAt_fst hci2, sum_eraseIdx_append hCiT, hsumC]
                exact hsumA

end Gwm

namespace Gwm

/-! ### Claim C3: the no-duplicate-handle invariant over all reachable trees -/

/-- The events and key/command bindings that mutate the tree
(src/gwm.py `Tree.on_event` lines 236-261 and the key-binding handlers):
a root-window property change, a map request for a (possibly invalid)
window, an unmap notification, and the nine key commands. -/
inductive Cmd : Type
  | propertyChange (name : String)
  | mapRequest (valid : Bool) (h : Nat)
  | unmapNotify (h : Nat)
  | keyAdjustMasterFactor (d : ℚ)
  | keyPromoteWindow
  | keyFocusWindow (off : Int)
  | keyFocusScreen (off : Int)
  | keySwitchWorkspace (i : Nat)
  | keyMoveWindowToWorkspace (i : Nat)
  | keyMoveWindowToScreen (off : Int)
  | keySwitchTask (name : String)
  | keyMoveWindowToTask (name : String)

/-- One event-loop step: the tree mutation each event or command performs,
with `sc` the monitor count the X server would report at that instant. -/
def stepCmd (sc : Nat) (r : Root) : Cmd → Option Root
  | .propertyChange name => (Tree.onPropertyChange sc r name).map Prod.fst
  | .mapRequest v h => Tree.handleWindow v r h
  | .unmapNotify h => Tree.unhandleWindow r h
  | .keyAdjustMasterFactor d => Tree.adjustMasterFactorCmd r d
  | .keyPromoteWindow => Tree.promoteWindow r
  | .keyFocusWindow off => Tree.focusWindowByOffset r off
  | .keyFocusScreen off => Tree.focusScreenByOffset r off
  | .keySwitchWorkspace i => Tree.switchWorkspace r i
  | .keyMoveWindowToWorkspace i => Tree.moveWindowToWorkspace r i
  | .keyMoveWindowToScreen off => Tree.moveWindowToScreen r off
  | .keySwitchTask name => (Tree.switchTask sc r name).map Prod.fst
  | .keyMoveWindowToTask name => (Tree.moveWindowToTask sc r name).map Prod.fst

/-- The tree states reachable by the program: `Tree.__init__` switches an
empty root to the default task, and every later mutation is a `stepCmd`. -/
inductive Reachable : Root → Prop
  | init {sc : Nat} {r : Root} {b : Bool}
      (h : Tree.switchTask sc ⟨[], 0⟩ TASK_NAME_DEFAULT = some (r, b)) : Reachable r
  | step {sc : Nat} {r r' : Root} {c : Cmd}
      (hr : Reachable r) (h : stepCmd sc r c = some r') : Reachable r'

lemma stepCmd_nodup {sc : Nat} {r r' : Root} {c : Cmd}
    (h : stepCmd sc r c = some r') (hn : r.winMS.Nodup) : r'.winMS.Nodup := by
  cases c with
  | propertyChange name =>
      rcases Option.map_eq_some'.1 h with ⟨p, hrun, rfl⟩
      obtain ⟨r2, b2⟩ := p
      unfold Tree.onPropertyChange at hrun
      by_cases he : name = ""
      · rw [if_pos he] at hrun
        injection Option.some.inj hrun with h1 h2
        rw [← h1]
        exact hn
      · rw [if_neg he] at hrun
        rcases hd : dispatchRootName name with n | n <;>
          rw [hd] at hrun <;> dsimp only at hrun
        · show r2.winMS.Nodup
          rw [moveWindowToTask_winMS hrun]
          exact hn
        · show r2.winMS.Nodup
          rw [switchTask_winMS hrun]
          exact hn
  | mapRequest v hnd =>
      rcases handleWindow_winMS h with rfl | ⟨hni, heq⟩
      · exact hn
      · rw [heq, add_comm, Multiset.singleton_add]
        refine Multiset.nodup_cons.2 ⟨?_, hn⟩
        intro hm
        rw [← root_allWindows_ms] at hm
        exact hni (Multiset.mem_coe.1 hm)
  | unmapNotify hnd => exact Multiset.nodup_of_le (unhandleWindow_winMS h) hn
  | keyAdjustMasterFactor d =>
      rw [adjustMasterFactorCmd_winMS h]
      exact hn
  | keyPromoteWindow =>
      rw [promoteWindow_winMS h]
      exact hn
  | keyFocusWindow off =>
      rw [focusWindowByOffset_winMS h]
      exact hn
  | keyFocusScreen off =>
      rw [focusScreenByOffset_winMS h]
      exact hn
  | keySwitchWorkspace i =>
      rw [switchWorkspace_winMS h]
      exact hn
  | keyMoveWindowToWorkspace i =>
      rw [moveWindowToWorkspace_winMS h]
      exact hn
  | keyMoveWindowToScreen off =>
      rw [moveWindowToScreen_winMS h]
      exact hn
  | keySwitchTask name =>
      rcases Option.map_eq_some'.1 h with ⟨p, hrun, rfl⟩
      obtain ⟨r2, b2⟩ := p
      show r2.winMS.Nodup
      rw [switchTask_winMS hrun]
      exact hn
  | keyMoveWindowToTask name =>
      rcases Option.map_eq_some'.1 h with ⟨p, hrun, rfl⟩
      obtain ⟨r2, b2⟩ := p
      show r2.winMS.Nodup
      rw [moveWindowToTask_winMS hrun]
      exact hn

lemma Reachable_nodup (r : Root) (hr : Reachable r) : r.winMS.Nodup := by
  induction hr with
  | init h =>
      rw [switchTask_winMS h]
      exact Multiset.nodup_zero
  | step hr h ih => exact stepCmd_nodup h ih

end Gwm

namespace Gwm

/-- C3.  In every tree state reachable by the event and command operations
(from the initial switch to the default task), the list of X window handles
held by Window nodes contains no duplicates, so the duplicate-handle guard
at the start of `_update_window_positions` (the `assert` over
`ids.count > 1`) selects no handle and the assertion never fires; moreover
a new-window event (`_handle_window`) for an already-tracked handle returns
the tree unchanged, adding no node. -/
theorem C3_no_duplicate_handles :
    (∀ r : Root, Reachable r →
      r.allWindows.Nodup ∧
      (r.allWindows.filter fun i => 1 < r.allWindows.count i) = []) ∧
    (∀ (v : Bool) (r : Root) (hnd : Nat), hnd ∈ r.allWindows →
      Tree.handleWindow v r hnd = some r) := by
  constructor
  · intro r hr
    have hnd : r.allWindows.Nodup :=
      (allWindows_nodup_iff r).2 (Reachable_nodup r hr)
    refine ⟨hnd, ?_⟩
    rw [List.filter_eq_nil_iff]
    intro a ha
    have hc := List.nodup_iff_count_le_one.1 hnd a
    simp only [decide_eq_true_eq]
    omega
  · intro v r hnd hmem
    unfold Tree.handleWindow
    by_cases hv : v = false
    · rw [if_pos hv]
    · rw [if_neg hv, if_pos hmem]

/-- C3 witness: the root reached by the initial switch to the default task
satisfies the invariant, and on a concrete tree tracking handle `5` a
map request for `5` leaves the tree unchanged. -/
theorem C3_no_duplicate_handles_witness :
    ((Root.mk [createTask 1 TASK_NAME_DEFAULT] 0).allWindows.Nodup ∧
      ((Root.mk [createTask 1 TASK_NAME_DEFAULT] 0).allWindows.filter
        fun i => 1 < (Root.mk [createTask 1 TASK_NAME_DEFAULT] 0).allWindows.count i)
        = []) ∧
    (5 : Nat) ∈ (Root.mk [Task.mk "t"
        [Screen.mk [Workspace.mk [5] 0 MASTER_FACTOR_DEFAULT] 0] 0] 0).allWindows ∧
    Tree.handleWindow true (Root.mk [Task.mk "t"
        [Screen.mk [Workspace.mk [5] 0 MASTER_FACTOR_DEFAULT] 0] 0] 0) 5
      = some (Root.mk [Task.mk "t"
        [Screen.mk [Workspace.mk [5] 0 MASTER_FACTOR_DEFAULT] 0] 0] 0) :=
  ⟨C3_no_duplicate_handles.1 _ (Reachable.init (show Tree.switchTask 1 ⟨[], 0⟩
      TASK_NAME_DEFAULT = some (⟨[createTask 1 TASK_NAME_DEFAULT], 0⟩, true) from rfl)),
   by decide,
   C3_no_duplicate_handles.2 true _ 5 (by decide)⟩

end Gwm
